import Mathlib

/-!
Shallow embedding of the core value model and execution options of the
SurrealDB query engine (files src/lib/src/sql/number.rs, geometry.rs,
statements/create.rs and src/lib/src/dbs/options.rs), together with
theorems settling the specification claims about them.

Machine floats are modelled by their IEEE 754 binary64 bit patterns
(a natural number below 2 to the 64). External library operations
(the std f64 primitives, rust_decimal, num_traits, the geo crate and
the nom combinators) are modelled from their documented contracts;
each such definition carries a comment saying so.
-/

namespace Surreal

/-! ### IEEE 754 binary64 bit-pattern model -/

/-- A binary64 value, represented by its bit pattern. -/
abbrev F64 := Fin (2 ^ 64)

/-- Build an F64 from a raw natural number bit pattern. -/
def mkF64 (n : Nat) : F64 := ⟨n % 2 ^ 64, Nat.mod_lt _ (by norm_num)⟩

/-- Biased exponent field (11 bits). -/
def f64Exp (a : F64) : Nat := a.val / 2 ^ 52 % 2 ^ 11

/-- Mantissa field (52 bits). -/
def f64Mant (a : F64) : Nat := a.val % 2 ^ 52

/-- Sign bit. -/
def f64Sign (a : F64) : Bool := 2 ^ 63 ≤ a.val

/-- Models f64::is_nan: exponent all ones and nonzero mantissa. -/
def f64IsNan (a : F64) : Bool := f64Exp a == 2047 && f64Mant a != 0

/-- Models f64::is_infinite. -/
def f64IsInf (a : F64) : Bool := f64Exp a == 2047 && f64Mant a == 0

/-- Models f64::is_finite. -/
def f64IsFinite (a : F64) : Bool := f64Exp a != 2047

/-- True for the two zero bit patterns, positive and negative zero.
This is exactly the set of a with a == 0.0 under IEEE comparison. -/
def f64IsZero (a : F64) : Bool := a.val == 0 || a.val == 2 ^ 63

/-- Positive zero. -/
def f64PZero : F64 := mkF64 0

/-- Negative zero. -/
def f64NZero : F64 := mkF64 (2 ^ 63)

/-- A quiet NaN bit pattern (the one produced by f64::NAN). -/
def f64NaN : F64 := mkF64 (2047 * 2 ^ 52 + 2 ^ 51)

/-- Interpret a 64-bit pattern as a twos-complement signed integer,
modelling the Rust cast from u64 to i64. -/
def i64OfBits (x : Nat) : Int := if x < 2 ^ 63 then (x : Int) else (x : Int) - 2 ^ 64

/-- Models the key transformation inside f64::total_cmp from the Rust
standard library: reinterpret the bits as i64 and, when the sign bit is
set, flip the low 63 bits so that the signed comparison of the keys
realises the IEEE total order. -/
def totalCmpKey (x : Nat) : Int :=
  i64OfBits (x ^^^ (if x < 2 ^ 63 then 0 else 2 ^ 63 - 1))

/-- Three-way comparison on integers, the Equal case iff the arguments
are equal. -/
def intCompare (a b : Int) : Ordering :=
  if a < b then .lt else if a = b then .eq else .gt

/-- Models f64::total_cmp from the Rust standard library. -/
def f64TotalCmp (a b : F64) : Ordering :=
  intCompare (totalCmpKey a.val) (totalCmpKey b.val)

/-- IEEE 754 equality on binary64 (the Rust == on f64): NaN is equal to
nothing, the two zeros are equal, and otherwise equality is equality of
bit patterns. -/
def ieeeEqF64 (a b : F64) : Bool :=
  (a.val == b.val && !f64IsNan a) || (f64IsZero a && f64IsZero b)

/-! ### rust_decimal model

The Decimal type of the rust_decimal crate is a sign, a 96-bit integer
mantissa and a scale in 0..=28, denoting plus or minus mant / 10^scale.
Its PartialEq and Ord compare by numeric value. We model these
contracts directly; the claims below never depend on the 96-bit and
scale bounds, so the fields are unconstrained naturals. -/

structure Dec where
  neg : Bool
  mant : Nat
  scale : Nat
deriving DecidableEq

/-- Signed mantissa of a Decimal. -/
def Dec.signedMant (d : Dec) : Int := if d.neg then -(d.mant : Int) else (d.mant : Int)

/-- Models Ord for rust_decimal::Decimal: numeric-value comparison of
mant1 / 10^s1 against mant2 / 10^s2 by cross multiplication. -/
def decCmp (a b : Dec) : Ordering :=
  intCompare (a.signedMant * 10 ^ b.scale) (b.signedMant * 10 ^ a.scale)

/-- Models PartialEq for rust_decimal::Decimal: numeric-value equality. -/
def decEq (a b : Dec) : Bool :=
  a.signedMant * 10 ^ b.scale == b.signedMant * 10 ^ a.scale

/-- Models Decimal::from(i64): exact, scale zero. -/
def decFromInt (v : Int) : Dec := ⟨decide (v < 0), v.natAbs, 0⟩

/-- The zero Decimal. -/
def decZero : Dec := ⟨false, 0, 0⟩

/-! ### Conversion of a positive rational to binary64

Used to model the external conversions i64 as f64 (round to nearest,
ties to even) and rust_decimal Decimal::to_f64. Only the normal range
is produced; no input used in this development reaches subnormals. -/

/-- Bit length of a natural number. -/
def natBitLen (n : Nat) : Nat := if n = 0 then 0 else Nat.log2 n + 1

/-- Core loop: search the exposure k with 2^52 <= floor(num * 2^k / den)
< 2^53, then round to nearest (ties to even) and assemble the bit
pattern. Fuel bounds the search. -/
def f64OfPosRatAux (num den : Nat) : Nat → Int → Nat
  | 0, _ => 0
  | fuel + 1, k =>
    let qr : Nat × Nat × Nat :=
      if 0 ≤ k then
        let n := num * 2 ^ k.toNat
        (n / den, n % den, den)
      else
        let d := den * 2 ^ (-k).toNat
        (num / d, num % d, d)
    let q := qr.1
    let r := qr.2.1
    let d := qr.2.2
    if q < 2 ^ 52 then f64OfPosRatAux num den fuel (k + 1)
    else if 2 ^ 53 ≤ q then f64OfPosRatAux num den fuel (k - 1)
    else
      let roundUp := d < 2 * r || (2 * r == d && q % 2 == 1)
      let q1 := if roundUp then q + 1 else q
      let qe : Nat × Int := if q1 == 2 ^ 53 then (2 ^ 52, 53 - k) else (q1, 52 - k)
      let biased : Int := qe.2 + 1023
      if biased ≤ 0 then 0
      else if 2047 ≤ biased then 2047 * 2 ^ 52
      else biased.toNat * 2 ^ 52 + (qe.1 - 2 ^ 52)

/-- Round the positive rational num / den to the nearest binary64 and
return its (sign-free) bit pattern. -/
def f64OfPosRat (num den : Nat) : Nat :=
  if num = 0 then 0
  else f64OfPosRatAux num den 400 (52 + (natBitLen den : Int) - (natBitLen num : Int))

/-- Attach a sign bit to a sign-free bit pattern. -/
def withSign (neg : Bool) (bits : Nat) : F64 :=
  mkF64 (if neg then 2 ^ 63 + bits else bits)

/-- Models the Rust cast from i64 to f64 (round to nearest, ties to
even; every i64 is in the finite range). -/
def i64AsF64 (v : Int) : F64 := withSign (decide (v < 0)) (f64OfPosRat v.natAbs 1)

/-- Models rust_decimal Decimal::to_f64, which the source comments of
number.rs note is infallible: round the decimal value to the nearest
binary64. -/
def decToF64 (d : Dec) : F64 :=
  if d.mant = 0 then f64PZero else withSign d.neg (f64OfPosRat d.mant (10 ^ d.scale))

/-! ### The Number value (src/lib/src/sql/number.rs)

Int is modelled by the unbounded Lean Int; the source casts that
truncate or wrap are made explicit where they occur. -/

/-- Alias for the mathematical integers modelling i64, usable inside
the Number namespace where the Int constructor shadows the Int type. -/
abbrev I64 := Int

inductive Number where
  | Int (v : Int)
  | Float (f : F64)
  | Decimal (d : Dec)
deriving DecidableEq

/-- Helper total_cmp_f64 inside impl Ord for Number: the two zeros are
equal, everything else is ordered by f64::total_cmp. -/
def total_cmp_f64 (a b : F64) : Ordering :=
  if f64IsZero a && f64IsZero b then .eq else f64TotalCmp a b

/-- Helper total_eq_f64 inside impl PartialEq for Number: equal bit
patterns, or both zero. -/
def total_eq_f64 (a b : F64) : Bool :=
  a.val == b.val || (f64IsZero a && f64IsZero b)

/-- Models impl Ord for Number (number.rs lines 404-434). -/
def Number.cmp : Number → Number → Ordering
  | .Int v, .Int w => intCompare v w
  | .Float v, .Float w => total_cmp_f64 v w
  | .Decimal v, .Decimal w => decCmp v w
  | .Int v, .Float w => total_cmp_f64 (i64AsF64 v) w
  | .Float v, .Int w => total_cmp_f64 v (i64AsF64 w)
  | .Int v, .Decimal w => decCmp (decFromInt v) w
  | .Decimal v, .Int w => decCmp v (decFromInt w)
  | .Float v, .Decimal w => total_cmp_f64 v (decToF64 w)
  | .Decimal v, .Float w => total_cmp_f64 (decToF64 v) w

/-- Models impl PartialEq for Number (number.rs lines 448-469). -/
def Number.beq : Number → Number → Bool
  | .Int v, .Int w => v == w
  | .Float v, .Float w => total_eq_f64 v w
  | .Decimal v, .Decimal w => decEq v w
  | .Int v, .Float w => total_eq_f64 (i64AsF64 v) w
  | .Float v, .Int w => total_eq_f64 v (i64AsF64 w)
  | .Int v, .Decimal w => decEq (decFromInt v) w
  | .Decimal v, .Int w => decEq v (decFromInt w)
  | .Float v, .Decimal w => total_eq_f64 v (decToF64 w)
  | .Decimal v, .Float w => total_eq_f64 (decToF64 v) w

/-! ### Numeric conversions (number.rs)

The num_traits ToPrimitive conversions and the saturating as casts are
external; they are modelled from their documented value semantics. -/

/-- Integer part (truncation toward zero) of a finite binary64, none
for NaN and infinities. -/
def f64TruncInt (f : F64) : Option Int :=
  if f64IsFinite f then
    let e := f64Exp f
    let m := if e = 0 then f64Mant f else 2 ^ 52 + f64Mant f
    let ePow : Nat := if e = 0 then 1 else e
    let mag : Nat := if 1075 ≤ ePow then m * 2 ^ (ePow - 1075) else m / 2 ^ (1075 - ePow)
    some (if f64Sign f then -(mag : Int) else (mag : Int))
  else none

/-- Models the saturating Rust cast from f64 to i64: NaN goes to 0,
otherwise truncate and clamp into the i64 range. -/
def f64AsI64 (f : F64) : Int :=
  match f64TruncInt f with
  | some t => max (-(2 ^ 63)) (min t (2 ^ 63 - 1))
  | none => if f64IsNan f then 0 else if f64Sign f then -(2 ^ 63) else 2 ^ 63 - 1

/-- Models the saturating Rust cast from f64 to usize (64-bit target). -/
def f64AsU64 (f : F64) : Nat :=
  match f64TruncInt f with
  | some t => (max 0 (min t (2 ^ 64 - 1))).toNat
  | none => if f64IsNan f then 0 else if f64Sign f then 0 else 2 ^ 64 - 1

/-- Models num_traits to_i64 on f64 (used by TryFrom<Number> for i64):
defined iff the truncated value fits in i64. -/
def f64ToI64opt (f : F64) : Option Int :=
  match f64TruncInt f with
  | some t => if -(2 ^ 63) ≤ t ∧ t ≤ 2 ^ 63 - 1 then some t else none
  | none => none

/-- Truncation toward zero of a Decimal value. -/
def decTruncInt (d : Dec) : Int :=
  let mag := d.mant / 10 ^ d.scale
  if d.neg then -(mag : Int) else (mag : Int)

/-- Models rust_decimal to_i64 and i64::try_from(Decimal): defined iff
the truncated value fits in i64. -/
def decToI64opt (d : Dec) : Option Int :=
  let t := decTruncInt d
  if -(2 ^ 63) ≤ t ∧ t ≤ 2 ^ 63 - 1 then some t else none

/-- Models rust_decimal to_u64-style conversion for usize targets. -/
def decToU64opt (d : Dec) : Option Nat :=
  let t := decTruncInt d
  if 0 ≤ t ∧ t ≤ 2 ^ 64 - 1 then some t.toNat else none

/-- Largest magnitude representable by rust_decimal: 2^96 - 1. -/
def decMaxMag : Nat := 2 ^ 96 - 1

/-- Models Decimal::try_from(f64): fails on NaN, infinities and values
whose magnitude exceeds the Decimal range; otherwise rounds the binary
value to a decimal. The claims below depend only on the failure
condition, not on the rounded mantissa. -/
def decFromF64opt (f : F64) : Option Dec :=
  if f64IsFinite f then
    match f64TruncInt f with
    | some t =>
      if t.natAbs ≤ decMaxMag then
        some ⟨f64Sign f, t.natAbs, 0⟩
      else none
    | none => none
  else none

/-- Models Decimal::try_from(f64).unwrap_or_default() as used by
as_decimal and to_decimal. -/
def decFromF64def (f : F64) : Dec := (decFromF64opt f).getD decZero

/-- Models Number::as_int (number.rs lines 275-281): lossy, total. -/
def Number.as_int : Number → I64
  | .Int v => v
  | .Float v => f64AsI64 v
  | .Decimal v => (decToI64opt v).getD 0

/-- Models Number::as_usize (number.rs lines 267-273): lossy, total. -/
def Number.as_usize : Number → Nat
  | .Int v => (v % 2 ^ 64).toNat
  | .Float v => f64AsU64 v
  | .Decimal v => (decToU64opt v).getD 0

/-- Models Number::as_float (number.rs lines 283-289): lossy, total.
The Decimal to f64 conversion is infallible, so unwrap_or_default
never takes the default there. -/
def Number.as_float : Number → F64
  | .Int v => i64AsF64 v
  | .Float v => v
  | .Decimal v => decToF64 v

/-- Models Number::as_decimal (number.rs lines 291-297): lossy, total,
falling back to Decimal::default (zero) when the Float does not
convert. -/
def Number.as_decimal : Number → Dec
  | .Int v => decFromInt v
  | .Float v => decFromF64def v
  | .Decimal v => v

/-! ### Number textual form (Display, number.rs lines 162-178)

The shortest-roundtrip decimal rendering of a finite f64 performed by
the Rust standard library is kept abstract: definitions that need it
take it as an argument fd. -/

/-- Rendering of a nonfinite f64 by the Rust Display. -/
def f64NonfiniteText (f : F64) : String :=
  if f64IsNan f then "NaN" else if f64Sign f then "-inf" else "inf"

/-- Decimal digit rendering with the scale preserved, modelling the
rust_decimal Display. -/
def decText (d : Dec) : String :=
  let digits := toString d.mant
  let digits := if digits.length ≤ d.scale then
    String.mk (List.replicate (d.scale + 1 - digits.length) '0') ++ digits
  else digits
  let intPart := digits.dropRight d.scale
  let frac := if d.scale = 0 then "" else "." ++ digits.takeRight d.scale
  (if d.neg then "-" else "") ++ intPart ++ frac

/-- Models Display for Number, given a rendering fd of finite floats:
ints print plainly, finite floats get the f suffix, nonfinite floats
print bare, decimals get the dec suffix. -/
def numText (fd : F64 → String) : Number → String
  | .Int v => toString v
  | .Float f => if f64IsFinite f then fd f ++ "f" else f64NonfiniteText f
  | .Decimal d => decText d ++ "dec"

/-! ### Number::pow (number.rs lines 391-399)

The external float powf and rust_decimal powi are taken as arguments:
every claim about pow concerns only which variant the result takes and
which arguments reach the external operation. -/

/-- Models the Rust cast from i64 to u32: truncation mod 2^32. -/
def i64AsU32 (p : Int) : Nat := (p % 2 ^ 32).toNat

/-- Wrap an unbounded integer into the i64 range, modelling the
release-profile wrapping overflow of i64::pow. -/
def i64Wrap (x : Int) : Int := (x + 2 ^ 63) % 2 ^ 64 - 2 ^ 63

/-- Models Number::pow. The Int and Int arm computes
v.pow(p as u32) as an i64; the Decimal and Int arm calls the external
rust_decimal powi; every other arm falls back to
self.as_float().powf(power.as_float()). -/
def Number.pow (powf : F64 → F64 → F64) (powi : Dec → I64 → Dec) :
    Number → Number → Number
  | .Int v, .Int p => .Int (i64Wrap (v ^ i64AsU32 p))
  | .Decimal v, .Int p => .Decimal (powi v p)
  | v, p => .Float (powf v.as_float p.as_float)

/-! ### TryFrom<Number> conversions (number.rs lines 112-160)

Each conversion is the corresponding num_traits or rust_decimal
conversion with a typed TryFrom error naming the printed value and the
target type. The i64 target is embedded as the representative of the
native integer targets produced by the try_into_prim family. -/

/-- Error kinds of the engine that this development touches
(crate::err::Error). Value payloads carried by statement errors are
modelled by their rendered text. -/
inductive Error where
  | NsEmpty
  | DbEmpty
  | ComputationDepthExceeded
  | RealtimeDisabled
  | Unreachable
  | IamError
  | TryFrom (value : String) (target : String)
  | InvalidStatementTarget (value : String)
  | CreateStatement (value : String)
  | QueryTimedout
deriving DecidableEq

/-- Models impl TryFrom<Number> for i64 (the try_into_prim rule
instantiated at i64): each variant is converted with to_i64, and None
becomes Error::TryFrom(value.to_string(), "i64").  Since the Lean
Int field is unbounded, the Int arm checks the i64 range that holds
for every actual i64. -/
def tryIntoI64 (fd : F64 → String) (n : Number) : Except Error I64 :=
  let fail := Except.error (Error.TryFrom (numText fd n) "i64")
  match n with
  | .Int v => if -(2 ^ 63) ≤ v ∧ v ≤ 2 ^ 63 - 1 then .ok v else fail
  | .Float v => match f64ToI64opt v with
    | some w => .ok w
    | none => fail
  | .Decimal v => match decToI64opt v with
    | some w => .ok w
    | none => fail

/-- Models impl TryFrom<Number> for f64: to_f64 never fails on any of
the three variants (rust_decimal to_f64 is infallible), so the
conversion always succeeds. -/
def tryIntoF64 (n : Number) : Except Error F64 :=
  .ok n.as_float

/-- Models impl TryFrom<Number> for Decimal (number.rs lines 145-160):
Decimal::from_i64 never fails for an actual i64, Decimal::try_from on
a Float fails outside the Decimal range, and a Decimal passes
through. -/
def tryIntoDec (fd : F64 → String) (n : Number) : Except Error Dec :=
  let fail := Except.error (Error.TryFrom (numText fd n) "Decimal")
  match n with
  | .Int v => .ok (decFromInt v)
  | .Float v => match decFromF64opt v with
    | some d => .ok d
    | none => fail
  | .Decimal d => .ok d

/-! ### IAM primitives (crate::iam, outside src)

Modelled from the spec: the IAM module supplies roles Viewer, Editor
and Owner, actions View and Edit, and principals bound to Root,
Namespace, Database or Scope level, with anonymous principals carrying
no level. Auth exposes is_anon, has_role, is_root, is_ns, is_db and
the level accessors used by check_perms. -/

inductive Role where
  | Viewer
  | Editor
  | Owner
deriving DecidableEq

inductive Action where
  | View
  | Edit
deriving DecidableEq

/-- Authorization level of a principal; No is the anonymous level. -/
inductive Level where
  | No
  | Root
  | Ns (ns : String)
  | Db (ns db : String)
  | Sc (ns db sc : String)
deriving DecidableEq

structure Auth where
  level : Level
  roles : List Role
deriving DecidableEq

def Auth.is_anon (a : Auth) : Bool := a.level == .No

def Auth.is_root (a : Auth) : Bool := match a.level with | .Root => true | _ => false

def Auth.is_ns (a : Auth) : Bool := match a.level with | .Ns _ => true | _ => false

def Auth.is_db (a : Auth) : Bool := match a.level with | .Db _ _ => true | _ => false

def Auth.has_role (a : Auth) (r : Role) : Bool := a.roles.contains r

/-- Namespace of a level, as exposed by Level::ns(). -/
def Level.nsOf : Level → Option String
  | .Ns n => some n
  | .Db n _ => some n
  | .Sc n _ _ => some n
  | _ => none

/-- Database of a level, as exposed by Level::db(). -/
def Level.dbOf : Level → Option String
  | .Db _ d => some d
  | .Sc _ d _ => some d
  | _ => none

/-- The default Auth: anonymous with no roles. -/
def Auth.default : Auth := ⟨.No, []⟩

/-! ### Execution options (src/lib/src/dbs/options.rs)

The notification sender and the capabilities descriptor play no part
in any claim and are modelled by placeholder fields. The node id is
modelled by a natural number standing for the UUID. -/

structure Options where
  id : Option Nat
  ns : Option String
  db : Option String
  dive : Nat
  auth : Auth
  auth_enabled : Bool
  live : Bool
  force : Bool
  perms : Bool
  strict : Bool
  fields : Bool
  events : Bool
  tables : Bool
  indexes : Bool
  futures : Bool
  projections : Bool
  sender : Option Unit
  capabilities : Unit
deriving DecidableEq

/-- Models Options::new (options.rs lines 65-86). -/
def Options.new : Options where
  id := none
  ns := none
  db := none
  dive := 0
  live := false
  perms := true
  force := false
  strict := false
  fields := true
  events := true
  tables := true
  indexes := true
  futures := false
  projections := false
  auth_enabled := true
  sender := none
  auth := Auth.default
  capabilities := ()

/-- Models Options::id (options.rs lines 411-413): the unset node id
yields the Unreachable error kind. -/
def Options.get_id (o : Options) : Except Error Nat :=
  match o.id with
  | some v => .ok v
  | none => .error .Unreachable

/-- Models Options::ns (options.rs lines 416-419): the accessor
unwraps the selection, so the unset case is a panic, modelled by
none. The commented-out source line returning Error::Unreachable is
not what the code does. -/
def Options.get_ns (o : Options) : Option String := o.ns

/-- Models Options::db (options.rs lines 422-425): unwraps like
Options::ns; none models the panic on an unset selection. -/
def Options.get_db (o : Options) : Option String := o.db

/-- Models Options::valid_for_ns (options.rs lines 436-441). -/
def Options.valid_for_ns (o : Options) : Except Error Unit :=
  if o.ns.isNone then .error .NsEmpty else .ok ()

/-- Models Options::valid_for_db (options.rs lines 444-451):
valid_for_ns first, then the database selection. -/
def Options.valid_for_db (o : Options) : Except Error Unit := do
  o.valid_for_ns
  if o.db.isNone then .error .DbEmpty else .ok ()

/-- Models the eager db_in_actor_level computation inside check_perms
(options.rs lines 500-504), including the short-circuit order of the
Rust boolean operators: the level namespace and database unwraps only
run when the preceding conjuncts hold, and the selection unwraps
(self.ns(), self.db()) panic when the selection is unset, modelled by
none. -/
def Options.db_in_actor_level (o : Options) : Option Bool :=
  if o.auth.is_root then some true
  else if o.auth.is_ns then do
    let n ← o.ns
    some (o.auth.level.nsOf.getD "" == n)
  else if o.auth.is_db then do
    let n ← o.ns
    if o.auth.level.nsOf.getD "" == n then do
      let d ← o.db
      some (o.auth.level.dbOf.getD "" == d)
    else some false
  else some false

/-- Models Options::check_perms (options.rs lines 483-520). The result
is none exactly when the Rust code would panic on an unset selection
unwrap; otherwise some of the returned boolean. -/
def Options.check_perms (o : Options) (action : Action) : Option Bool :=
  if !o.perms then some false
  else if !o.auth_enabled && o.auth.is_anon then some false
  else do
    let can_view := [Role.Viewer, Role.Editor, Role.Owner].any fun r => o.auth.has_role r
    let can_edit := [Role.Editor, Role.Owner].any fun r => o.auth.has_role r
    let dbInLevel ← o.db_in_actor_level
    let is_allowed := match action with
      | .View => can_view && dbInLevel
      | .Edit => can_edit && dbInLevel
    some !is_allowed

/-! ### CreateStatement::compute (src/lib/src/sql/statements/create.rs)

The context, transaction, document cursor, value computation and the
iterator are external to the statement skeleton; compute is embedded
over an arbitrary value type V and iterator state S, taking the
target computation, the iterator prepare and the iterator output as
arguments. -/

/-- Error rewriting applied to Iterator::prepare failures in
CreateStatement::compute (create.rs lines 66-73). -/
def createErrMap : Error → Error
  | .InvalidStatementTarget v => .CreateStatement v
  | e => e

/-- The target loop of CreateStatement::compute (create.rs lines
64-74): compute each target value, then prepare it, rewriting
InvalidStatementTarget and threading the iterator state. -/
def createTargets {V S : Type} (wcompute : V → Except Error V)
    (prepare : S → V → Except Error S) : S → List V → Except Error S
  | s, [] => .ok s
  | s, w :: ws => do
    let v ← wcompute w
    match prepare s v with
    | .ok s1 => createTargets wcompute prepare s1 ws
    | .error e => .error (createErrMap e)

/-- Models CreateStatement::compute (create.rs lines 48-77): assert
valid_for_db, run the target loop from the fresh iterator state, then
produce the iterator output. The derived options value with futures
set to false that the source passes to the target computation, the
prepare calls and the output call is absorbed into the wcompute,
prepare and output arguments, which stand for those calls with their
context, options and transaction already applied. -/
def createCompute {V S : Type} (opt : Options) (what : List V)
    (wcompute : V → Except Error V)
    (prepare : S → V → Except Error S)
    (s0 : S) (output : S → Except Error V) : Except Error V := do
  opt.valid_for_db
  let s ← createTargets wcompute prepare s0 what
  output s

/-! ### Geometry values (src/lib/src/sql/geometry.rs)

Points, line strings, polygons (exterior ring plus interior rings) and
the multi variants mirror the geo crate types; Collection is the
recursive heterogeneous list. -/

structure GPoint where
  x : F64
  y : F64
deriving DecidableEq

/-- The geo Polygon: one exterior ring and a list of interior rings. -/
structure PolygonG where
  exterior : List GPoint
  interiors : List (List GPoint)
deriving DecidableEq

inductive Geometry where
  | Point (p : GPoint)
  | Line (l : List GPoint)
  | Polygon (p : PolygonG)
  | MultiPoint (v : List GPoint)
  | MultiLine (v : List (List GPoint))
  | MultiPolygon (v : List PolygonG)
  | Collection (v : List Geometry)

/-- Primitive (non-Collection) geometry shapes, the arguments of the
external geo crate predicates. -/
inductive Prim where
  | pt (p : GPoint)
  | ln (l : List GPoint)
  | pg (p : PolygonG)
  | mpt (v : List GPoint)
  | mln (v : List (List GPoint))
  | mpg (v : List PolygonG)

/-- The external geo crate planar predicates consumed by geometry.rs:
Contains and Intersects on every primitive pairing the source calls.
The claims about Geometry::contains and Geometry::intersects hold for
every such library, so the predicates are a parameter. -/
structure GeoLib where
  contains : Prim → Prim → Bool
  intersects : Prim → Prim → Bool

mutual

/-- Models Geometry::contains (geometry.rs lines 330-377), arm by arm;
note that in the Line and MultiLine arms for a MultiLine argument, the
Polygon arm for a MultiPolygon argument and the MultiPoint arm for a
MultiPoint argument, the source tests the argument against itself
(w.contains(x) with x drawn from w), so the receiver is unused
there. -/
def geoContains (lib : GeoLib) : Geometry → Geometry → Bool
  | .Point v, .Point w => lib.contains (.pt v) (.pt w)
  | .Point v, .MultiPoint w => w.all fun x => lib.contains (.pt v) (.pt x)
  | .Point v, .Collection w => geoContainsAllR lib (.Point v) w
  | .Line v, .Point w => lib.contains (.ln v) (.pt w)
  | .Line v, .Line w => lib.contains (.ln v) (.ln w)
  | .Line _, .MultiLine w => w.all fun x => lib.contains (.mln w) (.ln x)
  | .Line v, .Collection w => geoContainsAllR lib (.Line v) w
  | .Polygon v, .Point w => lib.contains (.pg v) (.pt w)
  | .Polygon v, .Line w => lib.contains (.pg v) (.ln w)
  | .Polygon v, .Polygon w => lib.contains (.pg v) (.pg w)
  | .Polygon _, .MultiPolygon w => w.all fun x => lib.contains (.mpg w) (.pg x)
  | .Polygon v, .Collection w => geoContainsAllR lib (.Polygon v) w
  | .MultiPoint v, .Point w => lib.contains (.mpt v) (.pt w)
  | .MultiPoint _, .MultiPoint w => w.all fun x => lib.contains (.mpt w) (.pt x)
  | .MultiPoint v, .Collection w => geoContainsAllR lib (.MultiPoint v) w
  | .MultiLine v, .Point w => lib.contains (.mln v) (.pt w)
  | .MultiLine v, .Line w => lib.contains (.mln v) (.ln w)
  | .MultiLine _, .MultiLine w => w.all fun x => lib.contains (.mln w) (.ln x)
  | .MultiLine v, .Collection w => geoContainsAllR lib (.MultiLine v) w
  | .MultiPolygon v, .Point w => lib.contains (.mpg v) (.pt w)
  | .MultiPolygon v, .Line w => lib.contains (.mpg v) (.ln w)
  | .MultiPolygon v, .Polygon w => lib.contains (.mpg v) (.pg w)
  | .MultiPolygon v, .MultiPoint w => lib.contains (.mpg v) (.mpt w)
  | .MultiPolygon v, .MultiLine w => lib.contains (.mpg v) (.mln w)
  | .MultiPolygon v, .MultiPolygon w => lib.contains (.mpg v) (.mpg w)
  | .MultiPolygon v, .Collection w => geoContainsAllR lib (.MultiPolygon v) w
  | .Collection v, other => geoContainsAllL lib v other
  | _, _ => false

/-- All elements of the right-hand collection are contained in g. -/
def geoContainsAllR (lib : GeoLib) (g : Geometry) : List Geometry → Bool
  | [] => true
  | x :: xs => geoContains lib g x && geoContainsAllR lib g xs

/-- All elements of the left-hand collection contain o. -/
def geoContainsAllL (lib : GeoLib) : List Geometry → Geometry → Bool
  | [], _ => true
  | x :: xs, o => geoContains lib x o && geoContainsAllL lib xs o

end

mutual

/-- Models Geometry::intersects (geometry.rs lines 379-437), arm by
arm. MultiLine arguments are tested element-wise with any except in
the Polygon and MultiPolygon arms; Collection arguments are tested
with all. -/
def geoIntersects (lib : GeoLib) : Geometry → Geometry → Bool
  | .Point v, .Point w => lib.intersects (.pt v) (.pt w)
  | .Point v, .Line w => lib.intersects (.pt v) (.ln w)
  | .Point v, .Polygon w => lib.intersects (.pt v) (.pg w)
  | .Point v, .MultiPoint w => lib.intersects (.pt v) (.mpt w)
  | .Point v, .MultiLine w => w.any fun x => lib.intersects (.pt v) (.ln x)
  | .Point v, .MultiPolygon w => lib.intersects (.pt v) (.mpg w)
  | .Point v, .Collection w => geoIntersectsAllR lib (.Point v) w
  | .Line v, .Point w => lib.intersects (.ln v) (.pt w)
  | .Line v, .Line w => lib.intersects (.ln v) (.ln w)
  | .Line v, .Polygon w => lib.intersects (.ln v) (.pg w)
  | .Line v, .MultiPoint w => lib.intersects (.ln v) (.mpt w)
  | .Line v, .MultiLine w => w.any fun x => lib.intersects (.ln v) (.ln x)
  | .Line v, .MultiPolygon w => lib.intersects (.ln v) (.mpg w)
  | .Line v, .Collection w => geoIntersectsAllR lib (.Line v) w
  | .Polygon v, .Point w => lib.intersects (.pg v) (.pt w)
  | .Polygon v, .Line w => lib.intersects (.pg v) (.ln w)
  | .Polygon v, .Polygon w => lib.intersects (.pg v) (.pg w)
  | .Polygon v, .MultiPoint w => lib.intersects (.pg v) (.mpt w)
  | .Polygon v, .MultiLine w => lib.intersects (.pg v) (.mln w)
  | .Polygon v, .MultiPolygon w => lib.intersects (.pg v) (.mpg w)
  | .Polygon v, .Collection w => geoIntersectsAllR lib (.Polygon v) w
  | .MultiPoint v, .Point w => lib.intersects (.mpt v) (.pt w)
  | .MultiPoint v, .Line w => lib.intersects (.mpt v) (.ln w)
  | .MultiPoint v, .Polygon w => lib.intersects (.mpt v) (.pg w)
  | .MultiPoint v, .MultiPoint w => lib.intersects (.mpt v) (.mpt w)
  | .MultiPoint v, .MultiLine w => w.any fun x => lib.intersects (.mpt v) (.ln x)
  | .MultiPoint v, .MultiPolygon w => lib.intersects (.mpt v) (.mpg w)
  | .MultiPoint v, .Collection w => geoIntersectsAllR lib (.MultiPoint v) w
  | .MultiLine v, .Point w => lib.intersects (.mln v) (.pt w)
  | .MultiLine v, .Line w => lib.intersects (.mln v) (.ln w)
  | .MultiLine v, .Polygon w => lib.intersects (.mln v) (.pg w)
  | .MultiLine v, .MultiPoint w => lib.intersects (.mln v) (.mpt w)
  | .MultiLine v, .MultiLine w => w.any fun x => lib.intersects (.mln v) (.ln x)
  | .MultiLine v, .MultiPolygon w => lib.intersects (.mln v) (.mpg w)
  | .MultiLine v, .Collection w => geoIntersectsAllR lib (.MultiLine v) w
  | .MultiPolygon v, .Point w => lib.intersects (.mpg v) (.pt w)
  | .MultiPolygon v, .Line w => lib.intersects (.mpg v) (.ln w)
  | .MultiPolygon v, .Polygon w => lib.intersects (.mpg v) (.pg w)
  | .MultiPolygon v, .MultiPoint w => lib.intersects (.mpg v) (.mpt w)
  | .MultiPolygon v, .MultiLine w => lib.intersects (.mpg v) (.mln w)
  | .MultiPolygon v, .MultiPolygon w => lib.intersects (.mpg v) (.mpg w)
  | .MultiPolygon v, .Collection w => geoIntersectsAllR lib (.MultiPolygon v) w
  | .Collection v, other => geoIntersectsAllL lib v other

/-- All elements of the right-hand collection intersect g. -/
def geoIntersectsAllR (lib : GeoLib) (g : Geometry) : List Geometry → Bool
  | [] => true
  | x :: xs => geoIntersects lib g x && geoIntersectsAllR lib g xs

/-- All elements of the left-hand collection intersect o. -/
def geoIntersectsAllL (lib : GeoLib) : List Geometry → Geometry → Bool
  | [], _ => true
  | x :: xs, o => geoIntersects lib x o && geoIntersectsAllL lib xs o

end

/-! ### Geometry equality and hashing (geometry.rs lines 35 and 562-627)

Geometry derives PartialEq, which compares coordinates with the IEEE
f64 equality (so positive and negative zero are equal and NaN differs
from itself). Hash is manual and feeds a discriminator string followed
by the to_bits pattern of every coordinate. -/

def gpointEq (a b : GPoint) : Bool := ieeeEqF64 a.x b.x && ieeeEqF64 a.y b.y

def ringEq : List GPoint → List GPoint → Bool
  | [], [] => true
  | a :: as_, b :: bs => gpointEq a b && ringEq as_ bs
  | _, _ => false

def ringsEq : List (List GPoint) → List (List GPoint) → Bool
  | [], [] => true
  | a :: as_, b :: bs => ringEq a b && ringsEq as_ bs
  | _, _ => false

def polyEq (a b : PolygonG) : Bool :=
  ringEq a.exterior b.exterior && ringsEq a.interiors b.interiors

def polysEq : List PolygonG → List PolygonG → Bool
  | [], [] => true
  | a :: as_, b :: bs => polyEq a b && polysEq as_ bs
  | _, _ => false

mutual

/-- Models the derived PartialEq for Geometry: structural, with IEEE
equality on every f64 coordinate. -/
def geoEq : Geometry → Geometry → Bool
  | .Point a, .Point b => gpointEq a b
  | .Line a, .Line b => ringEq a b
  | .Polygon a, .Polygon b => polyEq a b
  | .MultiPoint a, .MultiPoint b => ringEq a b
  | .MultiLine a, .MultiLine b => ringsEq a b
  | .MultiPolygon a, .MultiPolygon b => polysEq a b
  | .Collection a, .Collection b => geoEqList a b
  | _, _ => false

def geoEqList : List Geometry → List Geometry → Bool
  | [], [] => true
  | a :: as_, b :: bs => geoEq a b && geoEqList as_ bs
  | _, _ => false

end

/-- One item fed to the hasher: a discriminator string or a 64-bit
coordinate pattern. Equal hash streams give equal hashes for every
hasher; distinct streams are how the Hash and Eq contract breaks. -/
inductive HItem where
  | str (s : String)
  | u64 (n : Nat)
deriving DecidableEq

/-- Hash stream of one coordinate pair: x.to_bits then y.to_bits. -/
def gpointHash (p : GPoint) : List HItem := [.u64 p.x.val, .u64 p.y.val]

/-- Hash stream of a ring or point list. -/
def ringHash (l : List GPoint) : List HItem := l.flatMap gpointHash

/-- Hash stream of a polygon: exterior ring then interior rings. -/
def polyHash (p : PolygonG) : List HItem :=
  ringHash p.exterior ++ p.interiors.flatMap ringHash

mutual

/-- Models impl hash::Hash for Geometry (geometry.rs lines 562-627):
discriminator string first, then every coordinate bit pattern in
structural order. -/
def geoHash : Geometry → List HItem
  | .Point p => .str "Point" :: gpointHash p
  | .Line l => .str "Line" :: ringHash l
  | .Polygon p => .str "Polygon" :: polyHash p
  | .MultiPoint v => .str "MultiPoint" :: ringHash v
  | .MultiLine v => .str "MultiLine" :: v.flatMap ringHash
  | .MultiPolygon v => .str "MultiPolygon" :: v.flatMap polyHash
  | .Collection v => .str "GeometryCollection" :: geoHashList v

def geoHashList : List Geometry → List HItem
  | [] => []
  | g :: gs => geoHash g ++ geoHashList gs

end

/-! ### Geometry textual form (Display, geometry.rs lines 440-560) and
parser (lines 629-939)

The text is modelled at token level: punctuation, bare words, quoted
strings and numeric literals. A finite f64 prints as a numeric token
(the std shortest-roundtrip rendering, which the nom double combinator
parses back exactly); a nonfinite f64 prints as a bare word (NaN, inf,
-inf) that double rejects, exactly as the character-level parser
would. Whitespace carries no information for this grammar and is
dropped. -/

inductive Tok where
  | lparen
  | rparen
  | lbrace
  | rbrace
  | lbrack
  | rbrack
  | comma
  | colon
  | num (f : F64)
  | word (s : String)
  | qstr (dq : Bool) (s : String)
deriving DecidableEq

/-- Token of one printed f64 coordinate. -/
def numTok (f : F64) : Tok :=
  if f64IsFinite f then .num f else .word (f64NonfiniteText f)

/-- Comma-separated catenation, modelling Fmt::comma_separated. -/
def joinComma : List (List Tok) → List Tok
  | [] => []
  | [x] => x
  | x :: xs => x ++ Tok.comma :: joinComma xs

/-- Tokens of one [x, y] coordinate pair. -/
def printCoord (p : GPoint) : List Tok :=
  [.lbrack, numTok p.x, .comma, numTok p.y, .rbrack]

/-- Tokens of one [[x, y], ...] ring. -/
def printRing (l : List GPoint) : List Tok :=
  .lbrack :: joinComma (l.map printCoord) ++ [.rbrack]

/-- Tokens of the coordinates value of a polygon as Display prints it:
the exterior ring, then, when interior rings exist, a comma and the
interior rings wrapped in one extra bracket pair (geometry.rs lines
456-484). -/
def printPolyVals (p : PolygonG) : List Tok :=
  .lbrack :: printRing p.exterior ++
    (match p.interiors with
     | [] => []
     | is_ => .comma :: .lbrack :: joinComma (is_.map printRing) ++ [.rbrack]) ++
    [.rbrack]

/-- Header tokens of a non-point variant: an opening brace, the bare
key type with a colon, the single-quoted tag, a comma and the bare
coordinates (or geometries) key with a colon. -/
def printHeader (tag : String) (valsKey : String) : List Tok :=
  [.lbrace, .word "type", .colon, .qstr false tag, .comma, .word valsKey, .colon]

mutual

/-- Models impl fmt::Display for Geometry. -/
def printGeometry : Geometry → List Tok
  | .Point p => [.lparen, numTok p.x, .comma, numTok p.y, .rparen]
  | .Line l =>
    printHeader "LineString" "coordinates" ++
      .lbrack :: joinComma (l.map printCoord) ++ [.rbrack, .rbrace]
  | .Polygon p =>
    printHeader "Polygon" "coordinates" ++ printPolyVals p ++ [.rbrace]
  | .MultiPoint v =>
    printHeader "MultiPoint" "coordinates" ++
      .lbrack :: joinComma (v.map printCoord) ++ [.rbrack, .rbrace]
  | .MultiLine v =>
    printHeader "MultiLineString" "coordinates" ++
      .lbrack :: joinComma (v.map printRing) ++ [.rbrack, .rbrace]
  | .MultiPolygon v =>
    printHeader "MultiPolygon" "coordinates" ++
      .lbrack :: joinComma (v.map printPolyVals) ++ [.rbrack, .rbrace]
  | .Collection v =>
    printHeader "GeometryCollection" "geometries" ++
      .lbrack :: joinComma (printGeometryList v) ++ [.rbrack, .rbrace]

def printGeometryList : List Geometry → List (List Tok)
  | [] => []
  | g :: gs => printGeometry g :: printGeometryList gs

end

/-! ### Token-level nom model

A parser maps the input tokens to an optional value and remaining
input; alternation backtracks on failure, as nom alt does on a
recoverable error, which is the only failure kind this grammar
produces. -/

def Parser (α : Type) : Type := List Tok → Option (α × List Tok)

/-- Consume one expected token. -/
def pTok (t : Tok) : Parser Unit := fun i =>
  match i with
  | t1 :: r => if t1 = t then some ((), r) else none
  | [] => none

/-- Alternation: second parser on failure of the first. -/
def pAlt {α : Type} (p q : Parser α) : Parser α := fun i => (p i).orElse fun _ => q i

/-- Models the nom double combinator at token level: nonfinite words
are rejected just as recognize_float rejects NaN and inf spellings. -/
def pDouble : Parser F64 := fun i =>
  match i with
  | .num f :: r => some (f, r)
  | _ => none

/-- A quoted variant tag in either quote style (the point_type family,
geometry.rs lines 845-899). -/
def pTypeTag (s : String) : Parser Unit := fun i =>
  match i with
  | .qstr _ s1 :: r => if s1 = s then some ((), r) else none
  | _ => none

/-- A key that may be bare or quoted, followed by a colon (the
key_type, key_vals and key_geom parsers, geometry.rs lines 905-939). -/
def pKey (s : String) : Parser Unit := fun i =>
  match i with
  | .word s1 :: r => if s1 = s then pTok .colon r else none
  | .qstr _ s1 :: r => if s1 = s then pTok .colon r else none
  | _ => none

/-- List body after the opening bracket, modelled from the spec words
for the delimited_list combinators (util.rs is outside src): elements
separated by commas, a trailing comma allowed, closed by a bracket.
Fuel bounds the loop; the callers hand it the input length, which
suffices because every element consumes input. -/
def pListGo {α : Type} (elem : Parser α) : Nat → List Tok → Option (List α × List Tok)
  | 0, _ => none
  | fuel + 1, i =>
    match pTok .rbrack i with
    | some (_, r) => some ([], r)
    | none => do
      let (v, i1) ← elem i
      match pTok .comma i1 with
      | some (_, i2) => do
        let (vs, r) ← pListGo elem fuel i2
        some (v :: vs, r)
      | none => do
        let (_, r) ← pTok .rbrack i1
        some ([v], r)

/-- Models delimited_list0(openbracket, commas, value, ]). -/
def pList0 {α : Type} (elem : Parser α) : Parser (List α) := fun i => do
  let (_, i1) ← pTok .lbrack i
  pListGo elem (i1.length + 1) i1

/-- Models delimited_list1: like delimited_list0 but at least one
element. -/
def pList1 {α : Type} (elem : Parser α) : Parser (List α) := fun i => do
  let (vs, r) ← pList0 elem i
  if vs.isEmpty then none else some (vs, r)

/-- Models the coordinate parser (geometry.rs lines 830-839). -/
def pCoordinate : Parser GPoint := fun i => do
  let (_, i) ← pTok .lbrack i
  let (x, i) ← pDouble i
  let (_, i) ← pTok .comma i
  let (y, i) ← pDouble i
  let (_, i) ← pTok .rbrack i
  some (⟨x, y⟩, i)

/-- Models line_vals: a bracketed list of coordinates. -/
def pLineVals : Parser (List GPoint) := pList0 pCoordinate

/-- Models polygon_vals (geometry.rs lines 793-800): a bracketed
nonempty list of rings; the first is the exterior, the rest the
interiors. -/
def pPolygonVals : Parser PolygonG := fun i => do
  let (vs, r) ← pList1 pLineVals i
  match vs with
  | e :: rest => some (⟨e, rest⟩, r)
  | [] => none

/-- One variant parser body: type key and tag then comma then the vals
key and value, in either order (the shape shared by the point, line,
polygon, multipoint, multiline, multipolygon and collection parsers,
geometry.rs lines 652-776). -/
def pTagged {α : Type} (tag : String) (valsKey : String) (vals : Parser α) : Parser α :=
  pAlt
    (fun i => do
      let (_, i) ← pKey "type" i
      let (_, i) ← pTypeTag tag i
      let (_, i) ← pTok .comma i
      let (_, i) ← pKey valsKey i
      vals i)
    (fun i => do
      let (v, i) ← pKey valsKey i
      let (v1, i) ← vals i
      let (_, i) ← pTok .comma i
      let (_, i) ← pKey "type" i
      let (_, i) ← pTypeTag tag i
      let _ := v
      some (v1, i))

/-- Models the simple parser (geometry.rs lines 634-641): a
parenthesized coordinate pair is a Point. -/
def pSimple : Parser Geometry := fun i => do
  let (_, i) ← pTok .lparen i
  let (x, i) ← pDouble i
  let (_, i) ← pTok .comma i
  let (y, i) ← pDouble i
  let (_, i) ← pTok .rparen i
  some (.Point ⟨x, y⟩, i)

/-- Models the point parser (geometry.rs lines 652-668). -/
def pPointGeo : Parser Geometry :=
  pTagged "Point" "coordinates" fun j => do
    let (p, j) ← pCoordinate j
    some (Geometry.Point p, j)

/-- Models the line parser (geometry.rs lines 670-686). -/
def pLineGeo : Parser Geometry :=
  pTagged "LineString" "coordinates" fun j => do
    let (l, j) ← pLineVals j
    some (Geometry.Line l, j)

/-- Models the polygon parser (geometry.rs lines 688-704). -/
def pPolygonGeo : Parser Geometry :=
  pTagged "Polygon" "coordinates" fun j => do
    let (p, j) ← pPolygonVals j
    some (Geometry.Polygon p, j)

/-- Models the multipoint parser (geometry.rs lines 706-722). -/
def pMultiPointGeo : Parser Geometry :=
  pTagged "MultiPoint" "coordinates" fun j => do
    let (v, j) ← pList0 pCoordinate j
    some (Geometry.MultiPoint v, j)

/-- Models the multiline parser (geometry.rs lines 724-740). -/
def pMultiLineGeo : Parser Geometry :=
  pTagged "MultiLineString" "coordinates" fun j => do
    let (v, j) ← pList0 pLineVals j
    some (Geometry.MultiLine v, j)

/-- Models the multipolygon parser (geometry.rs lines 742-758). -/
def pMultiPolygonGeo : Parser Geometry :=
  pTagged "MultiPolygon" "coordinates" fun j => do
    let (v, j) ← pList0 pPolygonVals j
    some (Geometry.MultiPolygon v, j)

/-- Models the collection parser (geometry.rs lines 760-776), given
the recursive geometry parser. -/
def pCollectionGeo (pg : Parser Geometry) : Parser Geometry :=
  pTagged "GeometryCollection" "geometries" fun j => do
    let (v, j) ← pList0 pg j
    some (Geometry.Collection v, j)

/-- Models the normal parser (geometry.rs lines 643-650) given the
recursive geometry parser for collections: braces around one of the
seven variant bodies, an optional trailing comma allowed. -/
def pNormal (pg : Parser Geometry) : Parser Geometry := fun i => do
  let (_, i) ← pTok .lbrace i
  let (v, i) ← pAlt pPointGeo (pAlt pLineGeo (pAlt pPolygonGeo (pAlt pMultiPointGeo
    (pAlt pMultiLineGeo (pAlt pMultiPolygonGeo (pCollectionGeo pg)))))) i
  let (c, i) ← match pTok .comma i with
    | some (_, r) => some (true, r)
    | none => some (false, i)
  let _ := c
  let (_, i) ← pTok .rbrace i
  some (v, i)

/-- Models the geometry parser (geometry.rs lines 629-632): the
recursion-depth guard dive is the fuel, exhausting it is the parse
failure the guard produces; then simple or normal. -/
def parseGeometry : Nat → Parser Geometry
  | 0 => fun _ => none
  | fuel + 1 => fun i => pAlt pSimple (pNormal (parseGeometry fuel)) i

/-! ### Side conditions for the parse round-trip -/

/-- Finiteness of every coordinate of a point. -/
def gpointFinite (p : GPoint) : Bool := f64IsFinite p.x && f64IsFinite p.y

mutual

/-- Geometries whose printed form the parser maps back: every
coordinate finite and no polygon carries interior rings (their printed
form is rejected by the parser, see the C6 counterexample). -/
def goodGeometry : Geometry → Bool
  | .Point p => gpointFinite p
  | .Line l => l.all gpointFinite
  | .Polygon p => p.exterior.all gpointFinite && p.interiors.isEmpty
  | .MultiPoint v => v.all gpointFinite
  | .MultiLine v => v.all fun r => r.all gpointFinite
  | .MultiPolygon v => v.all fun p => p.exterior.all gpointFinite && p.interiors.isEmpty
  | .Collection v => goodGeometryList v

def goodGeometryList : List Geometry → Bool
  | [] => true
  | g :: gs => goodGeometry g && goodGeometryList gs

end

mutual

/-- Collection-nesting depth of a geometry, the amount of parser
recursion budget its printed form needs. -/
def gdepth : Geometry → Nat
  | .Collection v => gdepthList v + 1
  | _ => 1

def gdepthList : List Geometry → Nat
  | [] => 0
  | g :: gs => max (gdepth g) (gdepthList gs)

end

/-! ### Claim-side definitions

Each definition below follows the wording of a claim (not the source);
the theorems compare the source-translated functions against them. -/

/-- Follows the C1 claim wording: the role set suffices for the action
(View needs Viewer, Editor or Owner; Edit needs Editor or Owner). -/
def claimRoleOk (o : Options) : Action → Bool
  | .View => o.auth.has_role .Viewer || o.auth.has_role .Editor || o.auth.has_role .Owner
  | .Edit => o.auth.has_role .Editor || o.auth.has_role .Owner

/-- Follows the C1 claim wording: the selected database lies within
the principal level (root principal: always; namespace principal: the
namespaces match; database principal: both namespace and database
match). -/
def claimLevelOk (o : Options) : Bool :=
  match o.auth.level with
  | .Root => true
  | .Ns n => o.ns == some n
  | .Db n d => o.ns == some n && o.db == some d
  | _ => false

/-- Follows the C1 claim wording: check_perms returns false exactly
when this condition holds. -/
def checkPermsClaimCond (o : Options) (a : Action) : Bool :=
  !o.perms || (!o.auth_enabled && o.auth.is_anon) || (claimRoleOk o a && claimLevelOk o)

/-- Follows the C9 claim wording: the ns accessor on an unset
selection yields the Unreachable error kind. -/
def get_ns_claimed (o : Options) : Except Error String :=
  match o.ns with
  | some s => .ok s
  | none => .error .Unreachable

/-- Follows the C9 claim wording for the db accessor. -/
def get_db_claimed (o : Options) : Except Error String :=
  match o.db with
  | some s => .ok s
  | none => .error .Unreachable

/-- Follows the C8 claim wording: the value fits the i64 target (its
truncation toward zero exists and lies in the i64 range). -/
def fitsI64 : Number → Prop
  | .Int v => -(2 ^ 63) ≤ v ∧ v ≤ 2 ^ 63 - 1
  | .Float f => ∃ t, f64TruncInt f = some t ∧ -(2 ^ 63) ≤ t ∧ t ≤ 2 ^ 63 - 1
  | .Decimal d => -(2 ^ 63) ≤ decTruncInt d ∧ decTruncInt d ≤ 2 ^ 63 - 1

/-- Follows the C8 claim wording: the value fits the Decimal target
(integers and decimals always; floats when finite and within the
decimal magnitude range). -/
def fitsDec : Number → Prop
  | .Int _ => True
  | .Float f => f64IsFinite f = true ∧ ∃ t, f64TruncInt f = some t ∧ t.natAbs ≤ decMaxMag
  | .Decimal _ => True

/-! ## Theorems

Shared helper lemmas first, then one theorem per claim (with a witness
where the statement carries hypotheses). -/

theorem intCompare_eq_iff (a b : Int) : intCompare a b = .eq ↔ a = b := by
  unfold intCompare
  split
  · constructor
    · intro h
      cases h
    · omega
  · split
    · simp_all
    · constructor
      · intro h
        cases h
      · omega

theorem totalCmpKey_small {x : Nat} (hx : x < 2 ^ 63) : totalCmpKey x = (x : Int) := by
  have hmask : (if x < 2 ^ 63 then (0 : Nat) else 2 ^ 63 - 1) = 0 := if_pos hx
  unfold totalCmpKey i64OfBits
  rw [hmask, Nat.xor_zero, if_pos hx]

theorem xor_high {x : Nat} (h1 : 2 ^ 63 ≤ x) (h2 : x < 2 ^ 64) :
    2 ^ 63 ≤ x ^^^ (2 ^ 63 - 1) ∧ x ^^^ (2 ^ 63 - 1) < 2 ^ 64 := by
  constructor
  · by_contra hlt
    push_neg at hlt
    have hm : (2 ^ 63 - 1 : Nat) < 2 ^ 63 := by norm_num
    have := Nat.xor_lt_two_pow hlt hm
    rw [Nat.xor_cancel_right] at this
    omega
  · exact Nat.xor_lt_two_pow h2 (by norm_num)

theorem totalCmpKey_large {x : Nat} (h1 : 2 ^ 63 ≤ x) (h2 : x < 2 ^ 64) :
    totalCmpKey x = ((x ^^^ (2 ^ 63 - 1) : Nat) : Int) - 2 ^ 64 := by
  have hmask : (if x < 2 ^ 63 then (0 : Nat) else 2 ^ 63 - 1) = 2 ^ 63 - 1 :=
    if_neg (by omega)
  unfold totalCmpKey i64OfBits
  rw [hmask, if_neg (by have := (xor_high h1 h2).1; omega)]

theorem totalCmpKey_inj {x y : Nat} (hx : x < 2 ^ 64) (hy : y < 2 ^ 64)
    (h : totalCmpKey x = totalCmpKey y) : x = y := by
  rcases Nat.lt_or_ge x (2 ^ 63) with hx1 | hx1 <;>
    rcases Nat.lt_or_ge y (2 ^ 63) with hy1 | hy1
  · rw [totalCmpKey_small hx1, totalCmpKey_small hy1] at h
    exact_mod_cast h
  · rw [totalCmpKey_small hx1, totalCmpKey_large hy1 hy] at h
    have := (xor_high hy1 hy).2
    omega
  · rw [totalCmpKey_large hx1 hx, totalCmpKey_small hy1] at h
    have := (xor_high hx1 hx).2
    omega
  · rw [totalCmpKey_large hx1 hx, totalCmpKey_large hy1 hy] at h
    have hz : x ^^^ (2 ^ 63 - 1) = y ^^^ (2 ^ 63 - 1) := by omega
    have := congrArg (· ^^^ (2 ^ 63 - 1)) hz
    simpa [Nat.xor_cancel_right] using this

theorem f64TotalCmp_eq_iff (a b : F64) : f64TotalCmp a b = .eq ↔ a = b := by
  unfold f64TotalCmp
  rw [intCompare_eq_iff]
  constructor
  · intro h
    exact Fin.ext (totalCmpKey_inj a.isLt b.isLt h)
  · intro h
    rw [h]

theorem total_eq_iff_cmp (a b : F64) : total_eq_f64 a b = true ↔ total_cmp_f64 a b = .eq := by
  unfold total_eq_f64 total_cmp_f64
  rcases hz : f64IsZero a && f64IsZero b with _ | _
  · simp only [hz, Bool.or_false, if_neg Bool.false_ne_true, f64TotalCmp_eq_iff, beq_iff_eq]
    constructor
    · intro h
      exact Fin.ext h
    · intro h
      rw [h]
  · simp [hz]

theorem decEq_iff_cmp (a b : Dec) : decEq a b = true ↔ decCmp a b = .eq := by
  unfold decEq decCmp
  rw [intCompare_eq_iff, beq_iff_eq]

/-- C2: numeric equality on Number coincides with the Equal case of
the total order across all variant pairings, and in particular the two
float zeros are equal to each other and compare equal to the integer
zero and the decimal zero. -/
theorem c2_number_eq_iff_cmp_eq :
    (∀ a b : Number, Number.beq a b = true ↔ Number.cmp a b = .eq) ∧
    Number.beq (.Float f64PZero) (.Float f64NZero) = true ∧
    Number.cmp (.Float f64PZero) (.Int 0) = .eq ∧
    Number.cmp (.Float f64NZero) (.Int 0) = .eq ∧
    Number.cmp (.Float f64PZero) (.Decimal decZero) = .eq ∧
    Number.cmp (.Float f64NZero) (.Decimal decZero) = .eq := by
  refine ⟨?_, by decide, by decide, by decide, by decide, by decide⟩
  intro a b
  cases a <;> cases b <;> simp only [Number.beq, Number.cmp]
  · rw [intCompare_eq_iff, beq_iff_eq]
  · exact total_eq_iff_cmp _ _
  · exact decEq_iff_cmp _ _
  · exact total_eq_iff_cmp _ _
  · exact total_eq_iff_cmp _ _
  · exact total_eq_iff_cmp _ _
  · exact decEq_iff_cmp _ _
  · exact total_eq_iff_cmp _ _
  · exact decEq_iff_cmp _ _

/-- C3 counterexample: a negative integer exponent is not routed
through Float; the Int and Int arm keeps it, coercing it to u32, so
Int(2) raised to Int(5 - 2^32) yields Int(32) (and no Float). -/
theorem c3_counterexample :
    Number.pow (fun _ _ => f64NaN) (fun d _ => d)
      (.Int 2) (.Int (5 - 2 ^ 32)) = .Int 32 := by
  decide

/-- C3 (amended): for every external float power and decimal integer
power, Int paired with Int stays Int with the exponent coerced to
32-bit unsigned (negative exponents included, not routed through
Float), Decimal paired with Int uses the decimal integer power, and
every other pairing falls back to Float exponentiation of the
as_float images. -/
theorem c3_pow_kinds :
    ∀ (powf : F64 → F64 → F64) (powi : Dec → I64 → Dec),
    (∀ v p : I64, Number.pow powf powi (.Int v) (.Int p) =
      .Int (i64Wrap (v ^ i64AsU32 p))) ∧
    (∀ (d : Dec) (p : I64), Number.pow powf powi (.Decimal d) (.Int p) =
      .Decimal (powi d p)) ∧
    (∀ (f : F64) (b : Number), Number.pow powf powi (.Float f) b =
      .Float (powf f b.as_float)) ∧
    (∀ (v : I64) (f : F64), Number.pow powf powi (.Int v) (.Float f) =
      .Float (powf (i64AsF64 v) f)) ∧
    (∀ (v : I64) (d : Dec), Number.pow powf powi (.Int v) (.Decimal d) =
      .Float (powf (i64AsF64 v) (decToF64 d))) ∧
    (∀ (a : Dec) (f : F64), Number.pow powf powi (.Decimal a) (.Float f) =
      .Float (powf (decToF64 a) f)) ∧
    (∀ a b : Dec, Number.pow powf powi (.Decimal a) (.Decimal b) =
      .Float (powf (decToF64 a) (decToF64 b))) := by
  intro powf powi
  refine ⟨fun v p => rfl, fun d p => rfl, ?_, fun v f => rfl, fun v d => rfl,
    fun a f => rfl, fun a b => rfl⟩
  intro f b
  cases b <;> rfl

/-- C4: the code violates the claimed (and std-required) Hash and Eq
contract. Point(0.0, 0.0) and Point(-0.0, 0.0) are equal under the
derived PartialEq, which uses IEEE f64 equality, but their hash
streams differ because hashing feeds to_bits and the two zeros have
distinct bit patterns. -/
theorem c4_hash_eq_violation :
    geoEq (.Point ⟨f64PZero, f64PZero⟩) (.Point ⟨f64NZero, f64PZero⟩) = true ∧
    geoHash (.Point ⟨f64PZero, f64PZero⟩) ≠ geoHash (.Point ⟨f64NZero, f64PZero⟩) := by
  decide

/-- C10: in the four delegating arms of contains whose right argument
is multi-valued, the source tests the argument against itself, so the
result equals the self-containment of the argument and is independent
of the receiver. -/
theorem c10_receiver_independent :
    ∀ (lib : GeoLib),
    (∀ (a1 a2 : List GPoint) (w : List (List GPoint)),
      geoContains lib (.Line a1) (.MultiLine w) =
        w.all (fun x => lib.contains (.mln w) (.ln x)) ∧
      geoContains lib (.Line a1) (.MultiLine w) =
        geoContains lib (.Line a2) (.MultiLine w)) ∧
    (∀ (a1 a2 : PolygonG) (w : List PolygonG),
      geoContains lib (.Polygon a1) (.MultiPolygon w) =
        w.all (fun x => lib.contains (.mpg w) (.pg x)) ∧
      geoContains lib (.Polygon a1) (.MultiPolygon w) =
        geoContains lib (.Polygon a2) (.MultiPolygon w)) ∧
    (∀ (a1 a2 : List GPoint) (w : List GPoint),
      geoContains lib (.MultiPoint a1) (.MultiPoint w) =
        w.all (fun x => lib.contains (.mpt w) (.pt x)) ∧
      geoContains lib (.MultiPoint a1) (.MultiPoint w) =
        geoContains lib (.MultiPoint a2) (.MultiPoint w)) ∧
    (∀ (a1 a2 : List (List GPoint)) (w : List (List GPoint)),
      geoContains lib (.MultiLine a1) (.MultiLine w) =
        w.all (fun x => lib.contains (.mln w) (.ln x)) ∧
      geoContains lib (.MultiLine a1) (.MultiLine w) =
        geoContains lib (.MultiLine a2) (.MultiLine w)) := by
  intro lib
  refine ⟨fun a1 a2 w => ⟨?_, ?_⟩, fun a1 a2 w => ⟨?_, ?_⟩,
    fun a1 a2 w => ⟨?_, ?_⟩, fun a1 a2 w => ⟨?_, ?_⟩⟩ <;>
    simp only [geoContains]

theorem geoContainsAllL_eq (lib : GeoLib) (c : List Geometry) (b : Geometry) :
    geoContainsAllL lib c b = c.all fun x => geoContains lib x b := by
  induction c with
  | nil => simp [geoContainsAllL]
  | cons x xs ih => simp [geoContainsAllL, ih]

theorem geoContainsAllR_eq (lib : GeoLib) (g : Geometry) (w : List Geometry) :
    geoContainsAllR lib g w = w.all fun x => geoContains lib g x := by
  induction w with
  | nil => simp [geoContainsAllR]
  | cons x xs ih => simp [geoContainsAllR, ih]

theorem geoIntersectsAllL_eq (lib : GeoLib) (c : List Geometry) (b : Geometry) :
    geoIntersectsAllL lib c b = c.all fun x => geoIntersects lib x b := by
  induction c with
  | nil => simp [geoIntersectsAllL]
  | cons x xs ih => simp [geoIntersectsAllL, ih]

theorem geoIntersectsAllR_eq (lib : GeoLib) (g : Geometry) (w : List Geometry) :
    geoIntersectsAllR lib g w = w.all fun x => geoIntersects lib g x := by
  induction w with
  | nil => simp [geoIntersectsAllR]
  | cons x xs ih => simp [geoIntersectsAllR, ih]

theorem listAllCongr {α : Type} {f g : α → Bool} :
    ∀ (l : List α), (∀ x ∈ l, f x = g x) → l.all f = l.all g := by
  intro l h
  induction l with
  | nil => rfl
  | cons x xs ih =>
    simp only [List.all_cons, h x (by simp), ih fun y hy => h y (by simp [hy])]

theorem listAllSwap {α β : Type} (p : α → β → Bool) (v : List α) (w : List β) :
    v.all (fun x => w.all fun y => p x y) = w.all fun y => v.all fun x => p x y := by
  rw [Bool.eq_iff_iff]
  simp only [List.all_eq_true]
  constructor
  · intro h y hy x hx
    exact h x hx y hy
  · intro h x hx y hy
    exact h y hy x hx

theorem geoContains_collection_right_aux (lib : GeoLib) :
    ∀ (n : Nat) (g : Geometry) (w : List Geometry), sizeOf g ≤ n →
    geoContains lib g (.Collection w) = w.all fun x => geoContains lib g x := by
  intro n
  induction n with
  | zero =>
    intro g w h
    cases g <;> simp at h
  | succ n ih =>
    intro g w h
    cases g with
    | Collection v =>
      have hL : geoContains lib (.Collection v) (.Collection w) =
          geoContainsAllL lib v (.Collection w) := by
        simp only [geoContains]
      rw [hL, geoContainsAllL_eq]
      have hx : ∀ x ∈ v, geoContains lib x (.Collection w) =
          w.all fun y => geoContains lib x y := by
        intro x hxv
        apply ih
        have h1 := List.sizeOf_lt_of_mem hxv
        have h2 : sizeOf (Geometry.Collection v) = 1 + sizeOf v := by
          simp
        omega
      rw [listAllCongr v hx, listAllSwap (fun x y => geoContains lib x y) v w]
      apply listAllCongr
      intro y _
      rw [← geoContainsAllL_eq]
      simp only [geoContains]
    | Point p => rw [show geoContains lib (.Point p) (.Collection w) =
        geoContainsAllR lib (.Point p) w by simp only [geoContains], geoContainsAllR_eq]
    | Line l => rw [show geoContains lib (.Line l) (.Collection w) =
        geoContainsAllR lib (.Line l) w by simp only [geoContains], geoContainsAllR_eq]
    | Polygon p => rw [show geoContains lib (.Polygon p) (.Collection w) =
        geoContainsAllR lib (.Polygon p) w by simp only [geoContains], geoContainsAllR_eq]
    | MultiPoint v => rw [show geoContains lib (.MultiPoint v) (.Collection w) =
        geoContainsAllR lib (.MultiPoint v) w by simp only [geoContains], geoContainsAllR_eq]
    | MultiLine v => rw [show geoContains lib (.MultiLine v) (.Collection w) =
        geoContainsAllR lib (.MultiLine v) w by simp only [geoContains], geoContainsAllR_eq]
    | MultiPolygon v => rw [show geoContains lib (.MultiPolygon v) (.Collection w) =
        geoContainsAllR lib (.MultiPolygon v) w by simp only [geoContains], geoContainsAllR_eq]

theorem geoIntersects_collection_right_aux (lib : GeoLib) :
    ∀ (n : Nat) (g : Geometry) (w : List Geometry), sizeOf g ≤ n →
    geoIntersects lib g (.Collection w) = w.all fun x => geoIntersects lib g x := by
  intro n
  induction n with
  | zero =>
    intro g w h
    cases g <;> simp at h
  | succ n ih =>
    intro g w h
    cases g with
    | Collection v =>
      have hL : geoIntersects lib (.Collection v) (.Collection w) =
          geoIntersectsAllL lib v (.Collection w) := by
        simp only [geoIntersects]
      rw [hL, geoIntersectsAllL_eq]
      have hx : ∀ x ∈ v, geoIntersects lib x (.Collection w) =
          w.all fun y => geoIntersects lib x y := by
        intro x hxv
        apply ih
        have h1 := List.sizeOf_lt_of_mem hxv
        have h2 : sizeOf (Geometry.Collection v) = 1 + sizeOf v := by
          simp
        omega
      rw [listAllCongr v hx, listAllSwap (fun x y => geoIntersects lib x y) v w]
      apply listAllCongr
      intro y _
      rw [← geoIntersectsAllL_eq]
      simp only [geoIntersects]
    | Point p => rw [show geoIntersects lib (.Point p) (.Collection w) =
        geoIntersectsAllR lib (.Point p) w by simp only [geoIntersects], geoIntersectsAllR_eq]
    | Line l => rw [show geoIntersects lib (.Line l) (.Collection w) =
        geoIntersectsAllR lib (.Line l) w by simp only [geoIntersects], geoIntersectsAllR_eq]
    | Polygon p => rw [show geoIntersects lib (.Polygon p) (.Collection w) =
        geoIntersectsAllR lib (.Polygon p) w by simp only [geoIntersects], geoIntersectsAllR_eq]
    | MultiPoint v => rw [show geoIntersects lib (.MultiPoint v) (.Collection w) =
        geoIntersectsAllR lib (.MultiPoint v) w by simp only [geoIntersects], geoIntersectsAllR_eq]
    | MultiLine v => rw [show geoIntersects lib (.MultiLine v) (.Collection w) =
        geoIntersectsAllR lib (.MultiLine v) w by simp only [geoIntersects], geoIntersectsAllR_eq]
    | MultiPolygon v => rw [show geoIntersects lib (.MultiPolygon v) (.Collection w) =
        geoIntersectsAllR lib (.MultiPolygon v) w by simp only [geoIntersects], geoIntersectsAllR_eq]

/-- C5: for every underlying geometric library, containment and
intersection against a Collection on the left are conjunctive over the
elements of the collection, and likewise a Collection on the right is
checked conjunctively over its elements, for every receiver. -/
theorem c5_collection_conjunctive :
    ∀ (lib : GeoLib),
    (∀ (c : List Geometry) (b : Geometry),
      geoContains lib (.Collection c) b = c.all (fun x => geoContains lib x b) ∧
      geoIntersects lib (.Collection c) b = c.all fun x => geoIntersects lib x b) ∧
    (∀ (g : Geometry) (w : List Geometry),
      geoContains lib g (.Collection w) = w.all (fun x => geoContains lib g x) ∧
      geoIntersects lib g (.Collection w) = w.all fun x => geoIntersects lib g x) := by
  intro lib
  constructor
  · intro c b
    constructor
    · rw [show geoContains lib (.Collection c) b = geoContainsAllL lib c b by
        simp only [geoContains], geoContainsAllL_eq]
    · rw [show geoIntersects lib (.Collection c) b = geoIntersectsAllL lib c b by
        simp only [geoIntersects], geoIntersectsAllL_eq]
  · intro g w
    exact ⟨geoContains_collection_right_aux lib (sizeOf g) g w le_rfl,
      geoIntersects_collection_right_aux lib (sizeOf g) g w le_rfl⟩

theorem beqComm {α : Type} [BEq α] [LawfulBEq α] (a b : α) : (a == b) = (b == a) := by
  rw [Bool.eq_iff_iff]
  simp only [beq_iff_eq]
  exact eq_comm

theorem optionSomeBeq {α : Type} [BEq α] [LawfulBEq α] (a b : α) :
    ((some a : Option α) == some b) = (a == b) := by
  rw [Bool.eq_iff_iff]
  simp only [beq_iff_eq, Option.some.injEq]

theorem db_in_actor_level_spec (o : Options) (dl : Bool)
    (h : o.db_in_actor_level = some dl) : dl = claimLevelOk o := by
  unfold Options.db_in_actor_level at h
  unfold claimLevelOk
  rcases hl : o.auth.level with _ | _ | n | ⟨n, d⟩ | ⟨n, d, s⟩
  · simp [Auth.is_root, Auth.is_ns, Auth.is_db, hl] at h
    simp [h]
  · simp [Auth.is_root, hl] at h
    simp [h]
  · simp [Auth.is_root, Auth.is_ns, hl, Level.nsOf] at h
    show dl = (o.ns == some n)
    rcases hns : o.ns with _ | m
    · rw [hns] at h
      simp at h
    · rw [hns] at h
      simp only [Option.bind_eq_bind, Option.some_bind, Option.some.injEq] at h
      rw [optionSomeBeq, beqComm m n]
      exact h.symm
  · simp [Auth.is_root, Auth.is_ns, Auth.is_db, hl, Level.nsOf, Level.dbOf] at h
    show dl = (o.ns == some n && o.db == some d)
    rcases hns : o.ns with _ | m
    · rw [hns] at h
      simp at h
    · rw [hns] at h
      simp only [Option.bind_eq_bind, Option.some_bind] at h
      by_cases hnm : n = m
      · rw [if_pos hnm] at h
        rcases hdb : o.db with _ | e
        · rw [hdb] at h
          simp at h
        · rw [hdb] at h
          simp only [Option.some_bind, Option.some.injEq] at h
          rw [optionSomeBeq, optionSomeBeq, ← hnm]
          simp only [beq_self_eq_true, Bool.true_and]
          rw [beqComm d e] at h
          exact h.symm
      · rw [if_neg hnm] at h
        simp only [Option.some.injEq] at h
        rw [optionSomeBeq]
        have hmn : (m == n) = false := by
          rw [beqComm m n]
          exact beq_eq_false_iff_ne.mpr hnm
        rw [hmn, Bool.false_and]
        exact h.symm
  · simp [Auth.is_root, Auth.is_ns, Auth.is_db, hl] at h
    simp [h]

/-- C1: whenever check_perms returns (it panics on an unset selection
unwrap, modelled by none), the returned boolean is false exactly under
the claimed condition: permissions disabled, or auth disabled with an
anonymous principal, or a sufficient role set with the selected
database inside the principal level. In particular check_perms(View)
returns false whenever auth is disabled and the principal is
anonymous, regardless of every other flag. -/
theorem c1_check_perms_spec :
    (∀ (o : Options) (a : Action) (b : Bool), o.check_perms a = some b →
      (b = false ↔ checkPermsClaimCond o a = true)) ∧
    (∀ o : Options, o.auth_enabled = false → o.auth.is_anon = true →
      o.check_perms .View = some false) := by
  constructor
  · intro o a b h
    unfold Options.check_perms at h
    unfold checkPermsClaimCond
    rcases hp : o.perms with _ | _
    · rw [hp] at h
      simp only [Bool.not_false, if_true, Option.some.injEq] at h
      simp [← h, hp]
    · rw [hp] at h
      simp only [Bool.not_true, Bool.false_eq_true, if_false] at h
      rcases ha : (!o.auth_enabled && o.auth.is_anon) with _ | _
      · rw [ha] at h
        simp only [Bool.false_eq_true, if_false] at h
        rcases hdb : o.db_in_actor_level with _ | dl
        · rw [hdb] at h
          simp at h
        · rw [hdb] at h
          simp only [Option.bind_eq_bind, Option.some_bind, Option.some.injEq] at h
          have hdl := db_in_actor_level_spec o dl hdb
          rw [← h]
          simp only [hp, ha, Bool.not_true, Bool.false_or, ← hdl]
          have hv : ([Role.Viewer, Role.Editor, Role.Owner].any fun r => o.auth.has_role r) =
              claimRoleOk o .View := by
            simp [claimRoleOk, Bool.or_assoc]
          have he : ([Role.Editor, Role.Owner].any fun r => o.auth.has_role r) =
              claimRoleOk o .Edit := by
            simp [claimRoleOk, Bool.or_assoc]
          cases a
          · rw [show (!(match Action.View with
                | Action.View => ([Role.Viewer, Role.Editor, Role.Owner].any
                    fun r => o.auth.has_role r) && dl
                | Action.Edit => ([Role.Editor, Role.Owner].any
                    fun r => o.auth.has_role r) && dl)) =
                !(claimRoleOk o .View && dl) by rw [hv]]
            cases hx : (claimRoleOk o .View && dl) <;> simp [hx]
          · rw [show (!(match Action.Edit with
                | Action.View => ([Role.Viewer, Role.Editor, Role.Owner].any
                    fun r => o.auth.has_role r) && dl
                | Action.Edit => ([Role.Editor, Role.Owner].any
                    fun r => o.auth.has_role r) && dl)) =
                !(claimRoleOk o .Edit && dl) by rw [he]]
            cases hx : (claimRoleOk o .Edit && dl) <;> simp [hx]
      · rw [ha] at h
        simp only [if_true] at h
        simp only [Option.some.injEq] at h
        simp [← h, ha]
  · intro o h1 h2
    unfold Options.check_perms
    rcases hp : o.perms with _ | _
    · simp [hp]
    · simp [hp, h1, h2]

/-- Witness for C1: the default Options (permissions on, auth on,
anonymous principal with no roles) returns true from check_perms, and
the claimed condition indeed fails there; disabling auth flips the
View result to false. -/
theorem c1_check_perms_spec_witness :
    ((true = false) ↔ checkPermsClaimCond Options.new .View = true) ∧
    Options.check_perms { Options.new with auth_enabled := false } .View = some false :=
  ⟨c1_check_perms_spec.1 Options.new .View true (by decide),
   c1_check_perms_spec.2 { Options.new with auth_enabled := false } (by decide) (by decide)⟩

/-- C9 counterexample: on the default Options, whose selections are
unset, the ns and db accessors panic (the unwrap case, modelled by
none) instead of yielding the claimed Unreachable error; the
claim-side accessors show what the claim prescribes instead. -/
theorem c9_counterexample :
    Options.get_ns Options.new = none ∧
    Options.get_db Options.new = none ∧
    get_ns_claimed Options.new = .error .Unreachable ∧
    get_db_claimed Options.new = .error .Unreachable :=
  ⟨rfl, rfl, rfl, rfl⟩

/-- C9 (amended): ns() and db() panic when the respective selection is
unset (their source unwraps, with the Unreachable-returning variant
only present as a commented-out line); the id() accessor is the one
that yields the Unreachable error kind when unset. -/
theorem c9_accessors :
    ∀ o : Options,
    (o.ns = none → o.get_ns = none) ∧
    (o.db = none → o.get_db = none) ∧
    (o.id = none → o.get_id = .error .Unreachable) := by
  intro o
  refine ⟨fun h => h, fun h => h, fun h => ?_⟩
  unfold Options.get_id
  rw [h]

/-- Witness for C9 at the default Options. -/
theorem c9_accessors_witness :
    Options.get_ns Options.new = none ∧
    Options.get_db Options.new = none ∧
    Options.get_id Options.new = .error .Unreachable :=
  ⟨(c9_accessors Options.new).1 rfl, (c9_accessors Options.new).2.1 rfl,
   (c9_accessors Options.new).2.2 rfl⟩

/-- C8 counterexample: the lossy as_int on a Decimal above the i64
range yields the default zero, not the claimed saturation value
i64::MAX. -/
theorem c8_counterexample :
    Number.as_int (.Decimal ⟨false, 2 ^ 70, 0⟩) = 0 ∧ (0 : Int) ≠ 2 ^ 63 - 1 := by
  constructor
  · decide
  · decide

/-- C8 (amended): the lossless TryFrom conversions succeed exactly
when the value fits the target and otherwise produce the typed error
TryFrom(value_text, target_type_name) (the f64 target always fits);
the lossy conversions are total and never error, a Float source
saturates on the integer casts, while a Decimal source or a
Float-to-Decimal conversion that does not fit falls back to the
default zero rather than saturating. -/
theorem c8_conversions :
    ∀ fd : F64 → String,
    (∀ n, (∃ v, tryIntoI64 fd n = .ok v) ↔ fitsI64 n) ∧
    (∀ n, ¬ fitsI64 n → tryIntoI64 fd n = .error (.TryFrom (numText fd n) "i64")) ∧
    (∀ n, tryIntoF64 n = .ok n.as_float) ∧
    (∀ n, (∃ d, tryIntoDec fd n = .ok d) ↔ fitsDec n) ∧
    (∀ n, ¬ fitsDec n → tryIntoDec fd n = .error (.TryFrom (numText fd n) "Decimal")) ∧
    (∀ f t, f64TruncInt f = some t → 2 ^ 63 - 1 < t →
      Number.as_int (.Float f) = 2 ^ 63 - 1) ∧
    (∀ f t, f64TruncInt f = some t → t < -(2 ^ 63) →
      Number.as_int (.Float f) = -(2 ^ 63)) ∧
    (∀ d, decToI64opt d = none → Number.as_int (.Decimal d) = 0) ∧
    (∀ d, decToU64opt d = none → Number.as_usize (.Decimal d) = 0) ∧
    (∀ f, decFromF64opt f = none → Number.as_decimal (.Float f) = decZero) := by
  intro fd
  have hoptSome : ∀ (f : F64) (t : Int), f64TruncInt f = some t →
      (-(2 ^ 63) ≤ t ∧ t ≤ 2 ^ 63 - 1) → f64ToI64opt f = some t := by
    intro f t ht hr
    unfold f64ToI64opt
    rw [ht]
    exact if_pos hr
  have hoptNone : ∀ (f : F64) (t : Int), f64TruncInt f = some t →
      ¬(-(2 ^ 63) ≤ t ∧ t ≤ 2 ^ 63 - 1) → f64ToI64opt f = none := by
    intro f t ht hr
    unfold f64ToI64opt
    rw [ht]
    exact if_neg hr
  have hoptNone2 : ∀ f : F64, f64TruncInt f = none → f64ToI64opt f = none := by
    intro f ht
    unfold f64ToI64opt
    rw [ht]
  refine ⟨?_, ?_, fun n => rfl, ?_, ?_, ?_, ?_, ?_, ?_, ?_⟩
  · intro n
    cases n with
    | Int v =>
      simp only [tryIntoI64, fitsI64]
      by_cases hr : -(2 ^ 63) ≤ v ∧ v ≤ 2 ^ 63 - 1
      · rw [if_pos hr]
        exact iff_of_true ⟨v, rfl⟩ hr
      · rw [if_neg hr]
        exact iff_of_false (by rintro ⟨v1, hv⟩; cases hv) hr
    | Float f =>
      rcases ht : f64TruncInt f with _ | t
      · simp [tryIntoI64, fitsI64, hoptNone2 f ht, ht]
      · by_cases hr : -(2 ^ 63) ≤ t ∧ t ≤ 2 ^ 63 - 1
        · simp only [tryIntoI64, fitsI64, hoptSome f t ht hr, ht]
          refine iff_of_true ⟨t, rfl⟩ ⟨t, rfl, hr⟩
        · simp only [tryIntoI64, fitsI64, hoptNone f t ht hr, ht]
          constructor
          · rintro ⟨v, hv⟩
            cases hv
          · rintro ⟨t1, ht1, hr1⟩
            cases ht1
            exact absurd hr1 hr
    | Decimal d =>
      simp only [tryIntoI64, fitsI64, decToI64opt]
      by_cases hr : -(2 ^ 63) ≤ decTruncInt d ∧ decTruncInt d ≤ 2 ^ 63 - 1
      · rw [if_pos hr]
        exact iff_of_true ⟨decTruncInt d, rfl⟩ hr
      · rw [if_neg hr]
        exact iff_of_false (by rintro ⟨v1, hv⟩; cases hv) hr
  · intro n hn
    cases n with
    | Int v =>
      simp only [fitsI64] at hn
      simp only [tryIntoI64]
      rw [if_neg hn]
    | Float f =>
      simp only [fitsI64] at hn
      rcases ht : f64TruncInt f with _ | t
      · simp [tryIntoI64, hoptNone2 f ht]
      · have hr : ¬(-(2 ^ 63) ≤ t ∧ t ≤ 2 ^ 63 - 1) := by
          rw [ht] at hn
          exact fun hc => hn ⟨t, rfl, hc⟩
        simp [tryIntoI64, hoptNone f t ht hr]
    | Decimal d =>
      simp only [fitsI64] at hn
      simp only [tryIntoI64, decToI64opt]
      rw [if_neg hn]
  · intro n
    cases n with
    | Int v => simp [tryIntoDec, fitsDec]
    | Decimal d => simp [tryIntoDec, fitsDec]
    | Float f =>
      rcases hf : f64IsFinite f with _ | _
      · have hopt : decFromF64opt f = none := by
          simp [decFromF64opt, hf]
        simp [tryIntoDec, fitsDec, hopt, hf]
      · rcases ht : f64TruncInt f with _ | t
        · exfalso
          unfold f64TruncInt at ht
          rw [if_pos hf] at ht
          cases ht
        · by_cases hm : t.natAbs ≤ decMaxMag
          · have hopt : decFromF64opt f = some ⟨f64Sign f, t.natAbs, 0⟩ := by
              unfold decFromF64opt
              rw [if_pos hf, ht]
              exact if_pos hm
            simp [tryIntoDec, fitsDec, hopt, hf, ht, hm]
          · have hopt : decFromF64opt f = none := by
              unfold decFromF64opt
              rw [if_pos hf, ht]
              exact if_neg hm
            simp only [tryIntoDec, fitsDec, hopt, hf, ht]
            constructor
            · rintro ⟨d, hd⟩
              cases hd
            · rintro ⟨_, t1, ht1, hm1⟩
              cases ht1
              exact absurd hm1 hm
  · intro n hn
    cases n with
    | Int v => exact absurd trivial hn
    | Decimal d => exact absurd trivial hn
    | Float f =>
      simp only [fitsDec] at hn
      rcases hf : f64IsFinite f with _ | _
      · have hopt : decFromF64opt f = none := by
          simp [decFromF64opt, hf]
        simp [tryIntoDec, hopt]
      · rcases ht : f64TruncInt f with _ | t
        · exfalso
          unfold f64TruncInt at ht
          rw [if_pos hf] at ht
          cases ht
        · have hm : ¬ t.natAbs ≤ decMaxMag := by
            rw [ht] at hn
            exact fun hc => hn ⟨hf, t, rfl, hc⟩
          have hopt : decFromF64opt f = none := by
            unfold decFromF64opt
            rw [if_pos hf, ht]
            exact if_neg hm
          simp [tryIntoDec, hopt]
  · intro f t ht hgt
    simp only [Number.as_int, f64AsI64, ht]
    rw [min_eq_right (by omega), max_eq_right (by norm_num)]
  · intro f t ht hlt
    simp only [Number.as_int, f64AsI64, ht]
    rw [min_eq_left (by omega), max_eq_left (by omega)]
  · intro d h
    simp [Number.as_int, h]
  · intro d h
    simp [Number.as_usize, h]
  · intro f h
    simp [Number.as_decimal, decFromF64def, h]

/-- Witness for C8: a Decimal of magnitude 2^70 does not fit i64, so
the lossless conversion errors with the typed payload while the lossy
as_int silently yields the default zero. -/
theorem c8_conversions_witness :
    Number.as_int (.Decimal ⟨false, 2 ^ 70, 0⟩) = 0 ∧
    tryIntoI64 (fun _ => "") (.Decimal ⟨false, 2 ^ 70, 0⟩) =
      .error (.TryFrom (numText (fun _ => "") (.Decimal ⟨false, 2 ^ 70, 0⟩)) "i64") :=
  ⟨(c8_conversions (fun _ => "")).2.2.2.2.2.2.2.1 ⟨false, 2 ^ 70, 0⟩ (by decide),
   (c8_conversions (fun _ => "")).2.1 (.Decimal ⟨false, 2 ^ 70, 0⟩)
     (by simp only [fitsI64]; decide)⟩

/-- C7: CreateStatement::compute first asserts valid_for_db, producing
NsEmpty when no namespace is selected and DbEmpty when a namespace is
selected but no database, before any target is evaluated (the target
and iterator functions are universally quantified, so the result does
not depend on them); when both are selected it runs the target loop
and then the iterator output. Inside the loop, a failed target
computation propagates unchanged, and a prepare failure is rewritten
from InvalidStatementTarget to CreateStatement while every other
prepare error propagates unchanged. -/
theorem c7_create_compute :
    ∀ (V S : Type) (wcompute : V → Except Error V) (prepare : S → V → Except Error S)
      (s0 : S) (output : S → Except Error V) (opt : Options) (what : List V),
    (opt.ns = none →
      createCompute opt what wcompute prepare s0 output = .error .NsEmpty) ∧
    (opt.ns ≠ none → opt.db = none →
      createCompute opt what wcompute prepare s0 output = .error .DbEmpty) ∧
    (opt.ns ≠ none → opt.db ≠ none →
      createCompute opt what wcompute prepare s0 output =
        (createTargets wcompute prepare s0 what).bind output) ∧
    (∀ (s : S) (w : V) (ws : List V) (e : Error), wcompute w = .error e →
      createTargets wcompute prepare s (w :: ws) = .error e) ∧
    (∀ (s : S) (w : V) (ws : List V) (v : V) (t : String),
      wcompute w = .ok v → prepare s v = .error (.InvalidStatementTarget t) →
      createTargets wcompute prepare s (w :: ws) = .error (.CreateStatement t)) ∧
    (∀ (s : S) (w : V) (ws : List V) (v : V) (e : Error),
      wcompute w = .ok v → prepare s v = .error e →
      (∀ t, e ≠ .InvalidStatementTarget t) →
      createTargets wcompute prepare s (w :: ws) = .error e) := by
  intro V S wcompute prepare s0 output opt what
  refine ⟨?_, ?_, ?_, ?_, ?_, ?_⟩
  · intro h
    simp [createCompute, Options.valid_for_db, Options.valid_for_ns, h,
      Bind.bind, Except.bind]
  · intro h1 h2
    rcases hns : opt.ns with _ | n
    · exact absurd hns h1
    · simp [createCompute, Options.valid_for_db, Options.valid_for_ns, hns, h2,
        Bind.bind, Except.bind]
  · intro h1 h2
    rcases hns : opt.ns with _ | n
    · exact absurd hns h1
    · rcases hdb : opt.db with _ | d
      · exact absurd hdb h2
      · simp [createCompute, Options.valid_for_db, Options.valid_for_ns, hns, hdb,
          Bind.bind, Except.bind]
  · intro s w ws e h
    simp [createTargets, h, Bind.bind, Except.bind]
  · intro s w ws v t h1 h2
    simp [createTargets, h1, h2, createErrMap, Bind.bind, Except.bind]
  · intro s w ws v e h1 h2 h3
    simp only [createTargets, h1, h2, Bind.bind, Except.bind]
    cases e <;> simp [createErrMap]
    case InvalidStatementTarget t => exact absurd rfl (h3 t)

/-- Witness for C7: with no namespace selected the compute call fails
with NsEmpty whatever the target functions do, and a prepare failure
with InvalidStatementTarget is rewritten to CreateStatement. -/
theorem c7_create_compute_witness :
    createCompute Options.new ["tbl"] (fun w => Except.ok w)
      (fun s _ => Except.ok s) () (fun _ => Except.ok "out") = .error .NsEmpty ∧
    createTargets (fun w => Except.ok w)
      (fun (_ : Unit) (_ : String) => Except.error (.InvalidStatementTarget "tbl")) ()
      ["tbl"] = .error (.CreateStatement "tbl") :=
  ⟨(c7_create_compute String Unit (fun w => Except.ok w) (fun s _ => Except.ok s) ()
      (fun _ => Except.ok "out") Options.new ["tbl"]).1 rfl,
   (c7_create_compute String Unit (fun w => Except.ok w)
      (fun _ _ => Except.error (.InvalidStatementTarget "tbl")) ()
      (fun _ => Except.ok "out") Options.new ["tbl"]).2.2.2.2.1 () "tbl" [] "tbl" "tbl"
      rfl rfl⟩

theorem pAlt_fst {α : Type} (p q : Parser α) (i : List Tok) (o : α × List Tok)
    (h : p i = some o) : pAlt p q i = some o := by
  simp [pAlt, h, Option.orElse]

theorem pAlt_snd {α : Type} (p q : Parser α) (i : List Tok) (h : p i = none) :
    pAlt p q i = q i := by
  simp [pAlt, h, Option.orElse]

theorem pTok_cons_self (t : Tok) (r : List Tok) : pTok t (t :: r) = some ((), r) := by
  simp [pTok]

theorem pTok_cons_ne (t t1 : Tok) (r : List Tok) (h : t1 ≠ t) : pTok t (t1 :: r) = none := by
  simp [pTok, h]

theorem pCoordinate_print (p : GPoint) (hf : gpointFinite p = true) (rest : List Tok) :
    pCoordinate (printCoord p ++ rest) = some (p, rest) := by
  have hx : f64IsFinite p.x = true := by
    simp only [gpointFinite, Bool.and_eq_true] at hf
    exact hf.1
  have hy : f64IsFinite p.y = true := by
    simp only [gpointFinite, Bool.and_eq_true] at hf
    exact hf.2
  simp [pCoordinate, printCoord, numTok, hx, hy, pTok, pDouble]

theorem joinComma_length_ge {α : Type} (printE : α → List Tok) :
    ∀ l : List α, (∀ a ∈ l, 1 ≤ (printE a).length) →
    l.length ≤ (joinComma (l.map printE)).length := by
  intro l
  induction l with
  | nil => intro _; simp [joinComma]
  | cons a tail ih =>
    intro h
    cases tail with
    | nil =>
      simpa [joinComma] using h a (by simp)
    | cons b tail2 =>
      have h1 := h a (by simp)
      have h2 := ih fun x hx => h x (by simp [hx])
      simp only [List.map_cons, joinComma, List.length_cons, List.length_append,
        List.length_cons] at h2 ⊢
      omega

theorem pListGo_print {α : Type} (elem : Parser α) (printE : α → List Tok) :
    ∀ (l : List α) (rest : List Tok) (fuel : Nat)
    (hok : ∀ a ∈ l, ∀ r : List Tok, elem (printE a ++ r) = some (a, r))
    (hhd : ∀ a ∈ l, ∃ t ts, printE a = t :: ts ∧ t ≠ Tok.rbrack)
    (hfuel : l.length < fuel),
    pListGo elem fuel (joinComma (l.map printE) ++ Tok.rbrack :: rest) = some (l, rest) := by
  intro l
  induction l with
  | nil =>
    intro rest fuel _ _ hfuel
    match fuel, hfuel with
    | fuel + 1, _ =>
      simp [joinComma, pListGo, pTok_cons_self]
  | cons a tail ih =>
    intro rest fuel hok hhd hfuel
    have hne : ∀ r : List Tok, elem (printE a ++ r) = some (a, r) := hok a (by simp)
    match fuel, hfuel with
    | fuel + 1, hfuel =>
      obtain ⟨t, ts, hpr, htne⟩ := hhd a (by simp)
      cases tail with
      | nil =>
        simp only [List.map_cons, List.map_nil, joinComma]
        rw [show printE a ++ Tok.rbrack :: rest = t :: (ts ++ Tok.rbrack :: rest) by
          rw [hpr]; simp]
        unfold pListGo
        rw [pTok_cons_ne _ _ _ htne]
        simp only []
        rw [show t :: (ts ++ Tok.rbrack :: rest) = printE a ++ Tok.rbrack :: rest by
          rw [hpr]; simp]
        rw [hne (Tok.rbrack :: rest)]
        simp only [Option.bind_eq_bind, Option.some_bind]
        rw [pTok_cons_ne _ _ _ (by simp)]
        simp [pTok_cons_self]
      | cons b tail2 =>
        simp only [List.map_cons, joinComma]
        rw [show (printE a ++ Tok.comma :: joinComma (printE b :: tail2.map printE)) ++
            Tok.rbrack :: rest =
            t :: (ts ++ Tok.comma ::
              (joinComma (printE b :: tail2.map printE) ++ Tok.rbrack :: rest)) by
          rw [hpr]; simp]
        unfold pListGo
        rw [pTok_cons_ne _ _ _ htne]
        simp only []
        rw [show t :: (ts ++ Tok.comma ::
            (joinComma (printE b :: tail2.map printE) ++ Tok.rbrack :: rest)) =
            printE a ++ Tok.comma ::
              (joinComma (printE b :: tail2.map printE) ++ Tok.rbrack :: rest) by
          rw [hpr]; simp]
        rw [hne _]
        simp only [Option.bind_eq_bind, Option.some_bind]
        rw [pTok_cons_self]
        have ihx := ih rest fuel (fun x hx => hok x (by simp [hx]))
          (fun x hx => hhd x (by simp [hx])) (by simp at hfuel ⊢; omega)
        simp only [List.map_cons] at ihx
        simp [ihx]

theorem pList0_print {α : Type} (elem : Parser α) (printE : α → List Tok)
    (l : List α) (rest : List Tok)
    (hok : ∀ a ∈ l, ∀ r : List Tok, elem (printE a ++ r) = some (a, r))
    (hhd : ∀ a ∈ l, ∃ t ts, printE a = t :: ts ∧ t ≠ Tok.rbrack) :
    pList0 elem (Tok.lbrack :: (joinComma (l.map printE) ++ Tok.rbrack :: rest)) =
      some (l, rest) := by
  unfold pList0
  rw [pTok_cons_self]
  simp only [Option.bind_eq_bind, Option.some_bind]
  apply pListGo_print elem printE l rest _ hok hhd
  have h1 : l.length ≤ (joinComma (l.map printE)).length := by
    apply joinComma_length_ge
    intro a ha
    obtain ⟨t, ts, hpr, _⟩ := hhd a ha
    simp [hpr]
  simp only [List.length_append, List.length_cons]
  omega

theorem pList1_print {α : Type} (elem : Parser α) (printE : α → List Tok)
    (l : List α) (rest : List Tok) (hl : l ≠ [])
    (hok : ∀ a ∈ l, ∀ r : List Tok, elem (printE a ++ r) = some (a, r))
    (hhd : ∀ a ∈ l, ∃ t ts, printE a = t :: ts ∧ t ≠ Tok.rbrack) :
    pList1 elem (Tok.lbrack :: (joinComma (l.map printE) ++ Tok.rbrack :: rest)) =
      some (l, rest) := by
  unfold pList1
  rw [pList0_print elem printE l rest hok hhd]
  simp [hl]

theorem pLineVals_print (l : List GPoint) (hf : l.all gpointFinite = true)
    (rest : List Tok) : pLineVals (printRing l ++ rest) = some (l, rest) := by
  have hshape : printRing l ++ rest =
      Tok.lbrack :: (joinComma (l.map printCoord) ++ Tok.rbrack :: rest) := by
    simp [printRing]
  rw [hshape]
  exact pList0_print pCoordinate printCoord l rest
    (fun a ha r => pCoordinate_print a (by rw [List.all_eq_true] at hf; exact hf a ha) r)
    (fun a _ => ⟨Tok.lbrack, [numTok a.x, Tok.comma, numTok a.y, Tok.rbrack], rfl, by simp⟩)

theorem printRing_head (l : List GPoint) :
    ∃ ts, printRing l = Tok.lbrack :: ts := by
  simp [printRing]

theorem pPolygonVals_print (p : PolygonG) (hf : p.exterior.all gpointFinite = true)
    (hint : p.interiors = []) (rest : List Tok) :
    pPolygonVals (printPolyVals p ++ rest) = some (p, rest) := by
  obtain ⟨e, i⟩ := p
  simp only at hint
  subst hint
  have hshape : printPolyVals ⟨e, []⟩ ++ rest =
      Tok.lbrack :: (joinComma ([e].map printRing) ++ Tok.rbrack :: rest) := by
    simp [printPolyVals, joinComma]
  rw [hshape]
  unfold pPolygonVals
  rw [pList1_print pLineVals printRing [e] rest (by simp)
    (fun a ha r => by
      rw [List.mem_singleton] at ha
      subst ha
      exact pLineVals_print a hf r)
    (fun a _ => by
      obtain ⟨ts, hts⟩ := printRing_head a
      exact ⟨Tok.lbrack, ts, hts, by simp⟩)]
  rfl

theorem pTagged_print {α : Type} (tag valsKey : String) (vals : Parser α) (v : α)
    (body rest : List Tok) (hvals : vals (body ++ rest) = some (v, rest)) :
    pTagged tag valsKey vals
      (Tok.word "type" :: Tok.colon :: Tok.qstr false tag :: Tok.comma ::
        Tok.word valsKey :: Tok.colon :: (body ++ rest)) = some (v, rest) := by
  unfold pTagged
  apply pAlt_fst
  simp [pKey, pTok, pTypeTag, hvals]

theorem pTagged_fail {α : Type} (tag tag2 valsKey : String) (vals : Parser α)
    (i : List Tok) (hne : tag2 ≠ tag) (hkey : valsKey ≠ "type") :
    pTagged tag valsKey vals
      (Tok.word "type" :: Tok.colon :: Tok.qstr false tag2 :: i) = none := by
  have hkey2 : "type" ≠ valsKey := fun h => hkey h.symm
  unfold pTagged pAlt
  simp [pKey, pTok, pTypeTag, hne, hkey2, Option.orElse]

theorem pSimple_print (p : GPoint) (hf : gpointFinite p = true) (rest : List Tok) :
    pSimple (Tok.lparen :: numTok p.x :: Tok.comma :: numTok p.y :: Tok.rparen :: rest) =
      some (.Point p, rest) := by
  have hx : f64IsFinite p.x = true := by
    simp only [gpointFinite, Bool.and_eq_true] at hf
    exact hf.1
  have hy : f64IsFinite p.y = true := by
    simp only [gpointFinite, Bool.and_eq_true] at hf
    exact hf.2
  simp [pSimple, numTok, hx, hy, pTok, pDouble]

theorem pSimple_fail (i : List Tok) : pSimple (Tok.lbrace :: i) = none := by
  simp [pSimple, pTok]

theorem pNormal_step (pg : Parser Geometry) (v : Geometry) (i1 rest : List Tok)
    (halt : pAlt pPointGeo (pAlt pLineGeo (pAlt pPolygonGeo (pAlt pMultiPointGeo
      (pAlt pMultiLineGeo (pAlt pMultiPolygonGeo (pCollectionGeo pg)))))) i1 =
      some (v, Tok.rbrace :: rest)) :
    pNormal pg (Tok.lbrace :: i1) = some (v, rest) := by
  unfold pNormal
  rw [pTok_cons_self]
  simp only [Option.bind_eq_bind, Option.some_bind]
  rw [halt]
  simp only [Option.some_bind]
  rw [pTok_cons_ne _ _ _ (by simp)]
  simp [pTok_cons_self]

theorem pPointGeo_fail (tag2 : String) (i : List Tok) (hne : tag2 ≠ "Point") :
    pPointGeo (Tok.word "type" :: Tok.colon :: Tok.qstr false tag2 :: i) = none :=
  pTagged_fail "Point" tag2 "coordinates" _ i hne (by decide)

theorem pLineGeo_fail (tag2 : String) (i : List Tok) (hne : tag2 ≠ "LineString") :
    pLineGeo (Tok.word "type" :: Tok.colon :: Tok.qstr false tag2 :: i) = none :=
  pTagged_fail "LineString" tag2 "coordinates" _ i hne (by decide)

theorem pPolygonGeo_fail (tag2 : String) (i : List Tok) (hne : tag2 ≠ "Polygon") :
    pPolygonGeo (Tok.word "type" :: Tok.colon :: Tok.qstr false tag2 :: i) = none :=
  pTagged_fail "Polygon" tag2 "coordinates" _ i hne (by decide)

theorem pMultiPointGeo_fail (tag2 : String) (i : List Tok) (hne : tag2 ≠ "MultiPoint") :
    pMultiPointGeo (Tok.word "type" :: Tok.colon :: Tok.qstr false tag2 :: i) = none :=
  pTagged_fail "MultiPoint" tag2 "coordinates" _ i hne (by decide)

theorem pMultiLineGeo_fail (tag2 : String) (i : List Tok)
    (hne : tag2 ≠ "MultiLineString") :
    pMultiLineGeo (Tok.word "type" :: Tok.colon :: Tok.qstr false tag2 :: i) = none :=
  pTagged_fail "MultiLineString" tag2 "coordinates" _ i hne (by decide)

theorem pMultiPolygonGeo_fail (tag2 : String) (i : List Tok)
    (hne : tag2 ≠ "MultiPolygon") :
    pMultiPolygonGeo (Tok.word "type" :: Tok.colon :: Tok.qstr false tag2 :: i) = none :=
  pTagged_fail "MultiPolygon" tag2 "coordinates" _ i hne (by decide)

theorem gdepth_pos (g : Geometry) : 1 ≤ gdepth g := by
  cases g <;> simp [gdepth]

theorem gdepthList_mem : ∀ (v : List Geometry) (a : Geometry), a ∈ v →
    gdepth a ≤ gdepthList v := by
  intro v
  induction v with
  | nil => intro a ha; cases ha
  | cons x xs ih =>
    intro a ha
    rcases List.mem_cons.mp ha with h | h
    · subst h
      simp [gdepthList]
    · calc gdepth a ≤ gdepthList xs := ih a h
        _ ≤ gdepthList (x :: xs) := by simp [gdepthList]

theorem goodGeometryList_mem : ∀ (v : List Geometry) (a : Geometry),
    goodGeometryList v = true → a ∈ v → goodGeometry a = true := by
  intro v
  induction v with
  | nil => intro a _ ha; cases ha
  | cons x xs ih =>
    intro a hg ha
    simp only [goodGeometryList, Bool.and_eq_true] at hg
    rcases List.mem_cons.mp ha with h | h
    · subst h
      exact hg.1
    · exact ih a hg.2 h

theorem printGeometryList_eq_map : ∀ v : List Geometry,
    printGeometryList v = v.map printGeometry := by
  intro v
  induction v with
  | nil => simp [printGeometryList]
  | cons x xs ih => simp [printGeometryList, ih]

theorem printPolyVals_head (p : PolygonG) : ∃ ts, printPolyVals p = Tok.lbrack :: ts := by
  simp [printPolyVals]

theorem printGeometry_head : ∀ g : Geometry,
    ∃ t ts, printGeometry g = t :: ts ∧ t ≠ Tok.rbrack := by
  intro g
  cases g with
  | Point p =>
    exact ⟨Tok.lparen, [numTok p.x, Tok.comma, numTok p.y, Tok.rparen],
      by simp [printGeometry], by simp⟩
  | Line l =>
    exact ⟨Tok.lbrace, Tok.word "type" :: Tok.colon :: Tok.qstr false "LineString" ::
      Tok.comma :: Tok.word "coordinates" :: Tok.colon ::
      (Tok.lbrack :: joinComma (l.map printCoord) ++ [Tok.rbrack, Tok.rbrace]),
      by simp [printGeometry, printHeader], by simp⟩
  | Polygon p =>
    exact ⟨Tok.lbrace, Tok.word "type" :: Tok.colon :: Tok.qstr false "Polygon" ::
      Tok.comma :: Tok.word "coordinates" :: Tok.colon ::
      (printPolyVals p ++ [Tok.rbrace]),
      by simp [printGeometry, printHeader], by simp⟩
  | MultiPoint v =>
    exact ⟨Tok.lbrace, Tok.word "type" :: Tok.colon :: Tok.qstr false "MultiPoint" ::
      Tok.comma :: Tok.word "coordinates" :: Tok.colon ::
      (Tok.lbrack :: joinComma (v.map printCoord) ++ [Tok.rbrack, Tok.rbrace]),
      by simp [printGeometry, printHeader], by simp⟩
  | MultiLine v =>
    exact ⟨Tok.lbrace, Tok.word "type" :: Tok.colon :: Tok.qstr false "MultiLineString" ::
      Tok.comma :: Tok.word "coordinates" :: Tok.colon ::
      (Tok.lbrack :: joinComma (v.map printRing) ++ [Tok.rbrack, Tok.rbrace]),
      by simp [printGeometry, printHeader], by simp⟩
  | MultiPolygon v =>
    exact ⟨Tok.lbrace, Tok.word "type" :: Tok.colon :: Tok.qstr false "MultiPolygon" ::
      Tok.comma :: Tok.word "coordinates" :: Tok.colon ::
      (Tok.lbrack :: joinComma (v.map printPolyVals) ++ [Tok.rbrack, Tok.rbrace]),
      by simp [printGeometry, printHeader], by simp⟩
  | Collection v =>
    exact ⟨Tok.lbrace, Tok.word "type" :: Tok.colon ::
      Tok.qstr false "GeometryCollection" ::
      Tok.comma :: Tok.word "geometries" :: Tok.colon ::
      (Tok.lbrack :: joinComma (printGeometryList v) ++ [Tok.rbrack, Tok.rbrace]),
      by simp [printGeometry, printHeader], by simp⟩

theorem parseGeometry_print :
    ∀ (fuel : Nat) (g : Geometry) (rest : List Tok),
    goodGeometry g = true → gdepth g ≤ fuel →
    parseGeometry fuel (printGeometry g ++ rest) = some (g, rest) := by
  intro fuel
  induction fuel with
  | zero =>
    intro g rest _ hd
    have := gdepth_pos g
    omega
  | succ fuel ih =>
    intro g rest hg hd
    cases g with
    | Point p =>
      unfold parseGeometry
      apply pAlt_fst
      rw [show printGeometry (.Point p) ++ rest = Tok.lparen :: numTok p.x :: Tok.comma ::
        numTok p.y :: Tok.rparen :: rest by simp [printGeometry]]
      exact pSimple_print p (by simpa [goodGeometry] using hg) rest
    | Line l =>
      have hfin : l.all gpointFinite = true := by simpa [goodGeometry] using hg
      have hvals : (fun j => do
          let (l1, j) ← pLineVals j
          some (Geometry.Line l1, j) : Parser Geometry)
          (printRing l ++ (Tok.rbrace :: rest)) =
          some (Geometry.Line l, Tok.rbrace :: rest) := by
        simp [pLineVals_print l hfin (Tok.rbrace :: rest)]
      have htag := pTagged_print "LineString" "coordinates"
        (fun j => do
          let (l1, j) ← pLineVals j
          some (Geometry.Line l1, j))
        (Geometry.Line l) (printRing l) (Tok.rbrace :: rest) hvals
      unfold parseGeometry
      rw [show printGeometry (.Line l) ++ rest = Tok.lbrace ::
        (Tok.word "type" :: Tok.colon :: Tok.qstr false "LineString" :: Tok.comma ::
          Tok.word "coordinates" :: Tok.colon :: (printRing l ++ (Tok.rbrace :: rest))) by
        simp [printGeometry, printHeader, printRing]]
      rw [pAlt_snd _ _ _ (pSimple_fail _)]
      apply pNormal_step
      rw [pAlt_snd _ _ _ (pPointGeo_fail "LineString" _ (by decide))]
      exact pAlt_fst _ _ _ _ htag
    | Polygon p =>
      have hgood : p.exterior.all gpointFinite = true ∧ p.interiors = [] := by
        simp only [goodGeometry, Bool.and_eq_true, List.isEmpty_iff] at hg
        exact hg
      have hvals : (fun j => do
          let (p1, j) ← pPolygonVals j
          some (Geometry.Polygon p1, j) : Parser Geometry)
          (printPolyVals p ++ (Tok.rbrace :: rest)) =
          some (Geometry.Polygon p, Tok.rbrace :: rest) := by
        simp [pPolygonVals_print p hgood.1 hgood.2 (Tok.rbrace :: rest)]
      have htag := pTagged_print "Polygon" "coordinates"
        (fun j => do
          let (p1, j) ← pPolygonVals j
          some (Geometry.Polygon p1, j))
        (Geometry.Polygon p) (printPolyVals p) (Tok.rbrace :: rest) hvals
      unfold parseGeometry
      rw [show printGeometry (.Polygon p) ++ rest = Tok.lbrace ::
        (Tok.word "type" :: Tok.colon :: Tok.qstr false "Polygon" :: Tok.comma ::
          Tok.word "coordinates" :: Tok.colon :: (printPolyVals p ++ (Tok.rbrace :: rest))) by
        simp [printGeometry, printHeader]]
      rw [pAlt_snd _ _ _ (pSimple_fail _)]
      apply pNormal_step
      rw [pAlt_snd _ _ _ (pPointGeo_fail "Polygon" _ (by decide))]
      rw [pAlt_snd _ _ _ (pLineGeo_fail "Polygon" _ (by decide))]
      exact pAlt_fst _ _ _ _ htag
    | MultiPoint v =>
      have hfin : v.all gpointFinite = true := by simpa [goodGeometry] using hg
      have hlist := pList0_print pCoordinate printCoord v (Tok.rbrace :: rest)
        (fun a ha r => pCoordinate_print a
          (by rw [List.all_eq_true] at hfin; exact hfin a ha) r)
        (fun a _ => ⟨Tok.lbrack, [numTok a.x, Tok.comma, numTok a.y, Tok.rbrack],
          rfl, by simp⟩)
      have hvals : (fun j => do
          let (v1, j) ← pList0 pCoordinate j
          some (Geometry.MultiPoint v1, j) : Parser Geometry)
          ((Tok.lbrack :: (joinComma (v.map printCoord) ++ [Tok.rbrack])) ++
            (Tok.rbrace :: rest)) = some (Geometry.MultiPoint v, Tok.rbrace :: rest) := by
        rw [show (Tok.lbrack :: (joinComma (v.map printCoord) ++ [Tok.rbrack])) ++
          (Tok.rbrace :: rest) = Tok.lbrack :: (joinComma (v.map printCoord) ++
            Tok.rbrack :: (Tok.rbrace :: rest)) by simp]
        simp [hlist]
      have htag := pTagged_print "MultiPoint" "coordinates"
        (fun j => do
          let (v1, j) ← pList0 pCoordinate j
          some (Geometry.MultiPoint v1, j))
        (Geometry.MultiPoint v)
        (Tok.lbrack :: (joinComma (v.map printCoord) ++ [Tok.rbrack]))
        (Tok.rbrace :: rest) hvals
      unfold parseGeometry
      rw [show printGeometry (.MultiPoint v) ++ rest = Tok.lbrace ::
        (Tok.word "type" :: Tok.colon :: Tok.qstr false "MultiPoint" :: Tok.comma ::
          Tok.word "coordinates" :: Tok.colon ::
          ((Tok.lbrack :: (joinComma (v.map printCoord) ++ [Tok.rbrack])) ++
            (Tok.rbrace :: rest))) by
        simp [printGeometry, printHeader]]
      rw [pAlt_snd _ _ _ (pSimple_fail _)]
      apply pNormal_step
      rw [pAlt_snd _ _ _ (pPointGeo_fail "MultiPoint" _ (by decide))]
      rw [pAlt_snd _ _ _ (pLineGeo_fail "MultiPoint" _ (by decide))]
      rw [pAlt_snd _ _ _ (pPolygonGeo_fail "MultiPoint" _ (by decide))]
      exact pAlt_fst _ _ _ _ htag
    | MultiLine v =>
      have hfin : v.all (fun r => r.all gpointFinite) = true := by
        simpa [goodGeometry] using hg
      have hlist := pList0_print pLineVals printRing v (Tok.rbrace :: rest)
        (fun a ha r => pLineVals_print a
          (by rw [List.all_eq_true] at hfin; exact hfin a ha) r)
        (fun a _ => by
          obtain ⟨ts, hts⟩ := printRing_head a
          exact ⟨Tok.lbrack, ts, hts, by simp⟩)
      have hvals : (fun j => do
          let (v1, j) ← pList0 pLineVals j
          some (Geometry.MultiLine v1, j) : Parser Geometry)
          ((Tok.lbrack :: (joinComma (v.map printRing) ++ [Tok.rbrack])) ++
            (Tok.rbrace :: rest)) = some (Geometry.MultiLine v, Tok.rbrace :: rest) := by
        rw [show (Tok.lbrack :: (joinComma (v.map printRing) ++ [Tok.rbrack])) ++
          (Tok.rbrace :: rest) = Tok.lbrack :: (joinComma (v.map printRing) ++
            Tok.rbrack :: (Tok.rbrace :: rest)) by simp]
        simp [hlist]
      have htag := pTagged_print "MultiLineString" "coordinates"
        (fun j => do
          let (v1, j) ← pList0 pLineVals j
          some (Geometry.MultiLine v1, j))
        (Geometry.MultiLine v)
        (Tok.lbrack :: (joinComma (v.map printRing) ++ [Tok.rbrack]))
        (Tok.rbrace :: rest) hvals
      unfold parseGeometry
      rw [show printGeometry (.MultiLine v) ++ rest = Tok.lbrace ::
        (Tok.word "type" :: Tok.colon :: Tok.qstr false "MultiLineString" :: Tok.comma ::
          Tok.word "coordinates" :: Tok.colon ::
          ((Tok.lbrack :: (joinComma (v.map printRing) ++ [Tok.rbrack])) ++
            (Tok.rbrace :: rest))) by
        simp [printGeometry, printHeader]]
      rw [pAlt_snd _ _ _ (pSimple_fail _)]
      apply pNormal_step
      rw [pAlt_snd _ _ _ (pPointGeo_fail "MultiLineString" _ (by decide))]
      rw [pAlt_snd _ _ _ (pLineGeo_fail "MultiLineString" _ (by decide))]
      rw [pAlt_snd _ _ _ (pPolygonGeo_fail "MultiLineString" _ (by decide))]
      rw [pAlt_snd _ _ _ (pMultiPointGeo_fail "MultiLineString" _ (by decide))]
      exact pAlt_fst _ _ _ _ htag
    | MultiPolygon v =>
      have hfin : v.all (fun p => p.exterior.all gpointFinite && p.interiors.isEmpty) =
          true := by
        simpa [goodGeometry] using hg
      have hlist := pList0_print pPolygonVals printPolyVals v (Tok.rbrace :: rest)
        (fun a ha r => by
          rw [List.all_eq_true] at hfin
          have hx := hfin a ha
          simp only [Bool.and_eq_true, List.isEmpty_iff] at hx
          exact pPolygonVals_print a hx.1 hx.2 r)
        (fun a _ => by
          obtain ⟨ts, hts⟩ := printPolyVals_head a
          exact ⟨Tok.lbrack, ts, hts, by simp⟩)
      have hvals : (fun j => do
          let (v1, j) ← pList0 pPolygonVals j
          some (Geometry.MultiPolygon v1, j) : Parser Geometry)
          ((Tok.lbrack :: (joinComma (v.map printPolyVals) ++ [Tok.rbrack])) ++
            (Tok.rbrace :: rest)) =
          some (Geometry.MultiPolygon v, Tok.rbrace :: rest) := by
        rw [show (Tok.lbrack :: (joinComma (v.map printPolyVals) ++ [Tok.rbrack])) ++
          (Tok.rbrace :: rest) = Tok.lbrack :: (joinComma (v.map printPolyVals) ++
            Tok.rbrack :: (Tok.rbrace :: rest)) by simp]
        simp [hlist]
      have htag := pTagged_print "MultiPolygon" "coordinates"
        (fun j => do
          let (v1, j) ← pList0 pPolygonVals j
          some (Geometry.MultiPolygon v1, j))
        (Geometry.MultiPolygon v)
        (Tok.lbrack :: (joinComma (v.map printPolyVals) ++ [Tok.rbrack]))
        (Tok.rbrace :: rest) hvals
      unfold parseGeometry
      rw [show printGeometry (.MultiPolygon v) ++ rest = Tok.lbrace ::
        (Tok.word "type" :: Tok.colon :: Tok.qstr false "MultiPolygon" :: Tok.comma ::
          Tok.word "coordinates" :: Tok.colon ::
          ((Tok.lbrack :: (joinComma (v.map printPolyVals) ++ [Tok.rbrack])) ++
            (Tok.rbrace :: rest))) by
        simp [printGeometry, printHeader]]
      rw [pAlt_snd _ _ _ (pSimple_fail _)]
      apply pNormal_step
      rw [pAlt_snd _ _ _ (pPointGeo_fail "MultiPolygon" _ (by decide))]
      rw [pAlt_snd _ _ _ (pLineGeo_fail "MultiPolygon" _ (by decide))]
      rw [pAlt_snd _ _ _ (pPolygonGeo_fail "MultiPolygon" _ (by decide))]
      rw [pAlt_snd _ _ _ (pMultiPointGeo_fail "MultiPolygon" _ (by decide))]
      rw [pAlt_snd _ _ _ (pMultiLineGeo_fail "MultiPolygon" _ (by decide))]
      exact pAlt_fst _ _ _ _ htag
    | Collection v =>
      have hgoodl : goodGeometryList v = true := by simpa [goodGeometry] using hg
      have hdl : gdepthList v ≤ fuel := by
        simp only [gdepth] at hd
        omega
      have hlist := pList0_print (parseGeometry fuel) printGeometry v (Tok.rbrace :: rest)
        (fun a ha r => ih a r (goodGeometryList_mem v a hgoodl ha)
          (le_trans (gdepthList_mem v a ha) hdl))
        (fun a _ => printGeometry_head a)
      have hvals : (fun j => do
          let (v1, j) ← pList0 (parseGeometry fuel) j
          some (Geometry.Collection v1, j) : Parser Geometry)
          ((Tok.lbrack :: (joinComma (v.map printGeometry) ++ [Tok.rbrack])) ++
            (Tok.rbrace :: rest)) =
          some (Geometry.Collection v, Tok.rbrace :: rest) := by
        rw [show (Tok.lbrack :: (joinComma (v.map printGeometry) ++ [Tok.rbrack])) ++
          (Tok.rbrace :: rest) = Tok.lbrack :: (joinComma (v.map printGeometry) ++
            Tok.rbrack :: (Tok.rbrace :: rest)) by simp]
        simp [hlist]
      have htag := pTagged_print "GeometryCollection" "geometries"
        (fun j => do
          let (v1, j) ← pList0 (parseGeometry fuel) j
          some (Geometry.Collection v1, j))
        (Geometry.Collection v)
        (Tok.lbrack :: (joinComma (v.map printGeometry) ++ [Tok.rbrack]))
        (Tok.rbrace :: rest) hvals
      unfold parseGeometry
      rw [show printGeometry (.Collection v) ++ rest = Tok.lbrace ::
        (Tok.word "type" :: Tok.colon :: Tok.qstr false "GeometryCollection" :: Tok.comma ::
          Tok.word "geometries" :: Tok.colon ::
          ((Tok.lbrack :: (joinComma (v.map printGeometry) ++ [Tok.rbrack])) ++
            (Tok.rbrace :: rest))) by
        simp [printGeometry, printHeader, printGeometryList_eq_map]]
      rw [pAlt_snd _ _ _ (pSimple_fail _)]
      apply pNormal_step
      rw [pAlt_snd _ _ _ (pPointGeo_fail "GeometryCollection" _ (by decide))]
      rw [pAlt_snd _ _ _ (pLineGeo_fail "GeometryCollection" _ (by decide))]
      rw [pAlt_snd _ _ _ (pPolygonGeo_fail "GeometryCollection" _ (by decide))]
      rw [pAlt_snd _ _ _ (pMultiPointGeo_fail "GeometryCollection" _ (by decide))]
      rw [pAlt_snd _ _ _ (pMultiLineGeo_fail "GeometryCollection" _ (by decide))]
      rw [pAlt_snd _ _ _ (pMultiPolygonGeo_fail "GeometryCollection" _ (by decide))]
      exact htag

/-- C6 counterexample: a Polygon with one interior ring does not
round-trip. Display wraps the interior rings in one extra bracket
layer, which the polygon coordinate parser rejects, so parsing the
printed form fails outright (fuel 9 far exceeds the nesting depth of
1, so the failure is not the depth guard). -/
theorem c6_counterexample :
    gdepth (Geometry.Polygon ⟨[⟨f64PZero, f64PZero⟩], [[⟨f64PZero, f64PZero⟩]]⟩) ≤ 9 ∧
    parseGeometry 9 (printGeometry
      (Geometry.Polygon ⟨[⟨f64PZero, f64PZero⟩], [[⟨f64PZero, f64PZero⟩]]⟩)) = none := by
  constructor
  · decide
  · rfl

/-- C6 (amended): parsing the printed textual form succeeds and yields
the original geometry for every geometry whose coordinates are all
finite, whose polygons (also inside multipolygons) carry no interior
rings, and whose collection-nesting depth stays within the parser
recursion budget; the parse consumes exactly the printed tokens. -/
theorem c6_parse_print_roundtrip :
    ∀ (g : Geometry) (fuel : Nat) (rest : List Tok),
    goodGeometry g = true → gdepth g ≤ fuel →
    parseGeometry fuel (printGeometry g ++ rest) = some (g, rest) :=
  fun g fuel rest hg hd => parseGeometry_print fuel g rest hg hd

/-- Witness for C6 at a concrete collection holding a point and a
line. -/
theorem c6_parse_print_roundtrip_witness :
    goodGeometry (Geometry.Collection [.Point ⟨f64PZero, f64PZero⟩, .Line []]) = true ∧
    gdepth (Geometry.Collection [.Point ⟨f64PZero, f64PZero⟩, .Line []]) ≤ 2 ∧
    parseGeometry 2 (printGeometry
        (Geometry.Collection [.Point ⟨f64PZero, f64PZero⟩, .Line []]) ++ []) =
      some (Geometry.Collection [.Point ⟨f64PZero, f64PZero⟩, .Line []], []) :=
  ⟨by decide, by decide,
   c6_parse_print_roundtrip (Geometry.Collection [.Point ⟨f64PZero, f64PZero⟩, .Line []])
     2 [] (by decide) (by decide)⟩

end Surreal
